import Mathlib

/-!
Verification of the replicate-proxy request-translation and
streaming-normalization pipeline.

The development shallowly embeds the TypeScript sources:
  * `src/api-service.ts`   — backend event normalization and the
    stream-to-sync fallback protocol (`ApiService.streamModelResponse`,
    `isValidTextContent`);
  * `src/utils.ts`         — SSE encoding (`createSSEChunk`,
    `handleStreamResponse`);
  * `src/message-processor.ts` — message normalization
    (`processMessages`, `extractSystemPrompt`, `extractImageUrls`,
    `formatMessagesToConversation`, `buildModelInput`);
  * `src/config.ts`        — `MAX_TOKENS_CONFIG`, `validateMaxTokens`.

JavaScript dynamic values are modelled by the deep datatype `JsVal`;
machine strings by Lean `String`; the ambient clock (`Date.now()`) by an
explicit parameter; network interaction by an explicit outcome datatype
(`StreamAttempt` / `Prediction`).  Pacing delays (`setTimeout`) have no
observable effect on emitted data and are not modelled.
-/

/-- A JavaScript runtime value, as far as the proxy inspects one:
strings, numbers, booleans, `null`, `undefined`, arrays and plain
objects (a list of named fields, first occurrence wins on lookup). -/
inductive JsVal where
  | vstr (s : String)
  | vnum (n : Int)
  | vbool (b : Bool)
  | vnull
  | vundefined
  | varr (elems : List JsVal)
  | vobj (fields : List (String × JsVal))

/-- Whitespace for the purposes of `String.prototype.trim`:
ECMAScript WhiteSpace plus LineTerminator code points. -/
def isJsWhitespace (c : Char) : Bool :=
  let n := c.toNat
  n = 0x9 || n = 0xa || n = 0xb || n = 0xc || n = 0xd || n = 0x20 ||
  n = 0xa0 || n = 0x1680 || (0x2000 ≤ n && n ≤ 0x200a) ||
  n = 0x2028 || n = 0x2029 || n = 0x202f || n = 0x205f ||
  n = 0x3000 || n = 0xfeff

/-- Character-list form of `String.prototype.trim`: drop leading and
trailing JS whitespace. -/
def jsTrimList (l : List Char) : List Char :=
  ((l.dropWhile isJsWhitespace).reverse.dropWhile isJsWhitespace).reverse

/-- Model of `String.prototype.trim`. -/
def jsTrim (s : String) : String :=
  String.mk (jsTrimList s.toList)

/-- Model of `ApiService.isValidTextContent` (src/api-service.ts:134-156):
the datum must be a string, non-empty, and its trimmed form must not be
one of the sentinels `""`, `"{}"`, `"[]"`, `"null"`, `"undefined"`. -/
def isValidTextContent (data : JsVal) : Bool :=
  match data with
  | .vstr s =>
    if s.length = 0 then false
    else
      let trimmedData := jsTrim s
      !(trimmedData == "" || trimmedData == "\x7b\x7d" || trimmedData == "[]" ||
        trimmedData == "null" || trimmedData == "undefined")
  | _ => false

/-- The string payload of a `JsVal` known to be a string (the TS source
uses the cast `event as string` at this point). -/
def strVal : JsVal → String
  | .vstr s => s
  | _ => ""

/-- Test for `v === "lit"` (strict equality against a string literal). -/
def isStrVal (v : JsVal) (lit : String) : Bool :=
  match v with
  | .vstr s => s == lit
  | _ => false

/-- Model of `event && typeof event === "object"`: arrays and plain
objects are truthy objects; `null` has object type but is falsy. -/
def isTruthyObject : JsVal → Bool
  | .vobj _ => true
  | .varr _ => true
  | _ => false

/-- Model of the `"k" in v` membership test on a plain object. -/
def hasField (v : JsVal) (k : String) : Bool :=
  match v with
  | .vobj fields => fields.any (fun p => p.1 == k)
  | _ => false

/-- Model of property access `v.k` on a value already known to be a
truthy object (absent fields read as `undefined`). -/
def getField (v : JsVal) (k : String) : JsVal :=
  match v with
  | .vobj fields => ((fields.find? (fun p => p.1 == k)).map (fun p => p.2)).getD .vundefined
  | _ => .vundefined

/-- The normalized internal event type `ReplicateEvent` (src/types.ts):
an `output` carrying text, or a terminal `done`. -/
inductive ReplicateEvent where
  | output (data : String)
  | done
  deriving DecidableEq, Repr

/-- How the native streaming loop of `streamModelResponse`
(src/api-service.ts:184-248) reacts to one raw item. -/
inductive Classified where
  | out (s : String)
  | doneEv
  | skip
  deriving DecidableEq, Repr

/-- One iteration of the native streaming loop body
(src/api-service.ts:186-247): a valid plain string yields output; a
truthy object with `event` and `data` fields yields output (when the
event is `"output"` with valid data) or the done signal (when the event
is `"done"` or `"completed"`); a truthy object with a `data` field
holding valid text yields output; everything else is skipped. -/
def classify (event : JsVal) : Classified :=
  if isValidTextContent event then .out (strVal event)
  else if isTruthyObject event then
    if hasField event "event" && hasField event "data" then
      let eventData := getField event "data"
      let eventType := getField event "event"
      if isStrVal eventType "output" && isValidTextContent eventData then
        .out (strVal eventData)
      else if isStrVal eventType "done" || isStrVal eventType "completed" then
        .doneEv
      else .skip
    else if hasField event "data" && isValidTextContent (getField event "data") then
      .out (strVal (getField event "data"))
    else .skip
  else .skip

/-- The native streaming path of `ApiService.streamModelResponse`
(src/api-service.ts:184-254) applied to the whole raw item sequence: the
loop emits events per `classify`; on an explicit done item it yields
`done` and breaks, after which the unconditional trailing `done`
(line 251) is also yielded; when the source is exhausted only the
trailing `done` is yielded. -/
def streamNative : List JsVal → List ReplicateEvent
  | [] => [.done]
  | e :: rest =>
    match classify e with
    | .out s => .output s :: streamNative rest
    | .doneEv => [.done, .done]
    | .skip => streamNative rest

/-- Fuel-indexed slicing loop; the fuel bounds the number of
iterations and is always instantiated with the list length. -/
def chunks15Aux : Nat → List Char → List (List Char)
  | _, [] => []
  | 0, _ :: _ => []
  | fuel + 1, c :: rest => ((c :: rest).take 15) :: chunks15Aux fuel ((c :: rest).drop 15)

/-- Consecutive 15-character slices of a character list, mirroring
`content.slice(i, i + chunkSize)` with `chunkSize = 15`
(src/api-service.ts:285-288). -/
def chunks15 (l : List Char) : List (List Char) :=
  chunks15Aux l.length l

/-- Result of the synchronous `replicateClient.run` call used by the
fallback path: an array of string fragments or a single string. -/
inductive Prediction where
  | parr (frags : List String)
  | pstr (s : String)
  deriving DecidableEq, Repr

/-- Truthiness of the prediction (`if (prediction)`,
src/api-service.ts:274): arrays are always truthy, a string is truthy
iff non-empty. -/
def predictionTruthy : Prediction → Bool
  | .parr _ => true
  | .pstr s => s != ""

/-- The full text of the prediction (src/api-service.ts:275-280):
arrays are joined with no separator, otherwise stringified. -/
def predictionContent : Prediction → String
  | .parr frags => String.join frags
  | .pstr s => s

/-- The fallback path of `ApiService.streamModelResponse`
(src/api-service.ts:268-311): for a truthy prediction whose full text is
valid, the text is cut into 15-character slices, each slice passing the
validity filter is emitted as `output`, and a single `done` follows; a
truthy prediction with invalid text yields just `done`; a falsy
prediction yields nothing at all. -/
def streamFallback (p : Prediction) : List ReplicateEvent :=
  if predictionTruthy p then
    let content := predictionContent p
    (if isValidTextContent (.vstr content) then
      (((chunks15 content.toList).map String.mk).filter
        (fun c => isValidTextContent (.vstr c))).map ReplicateEvent.output
    else []) ++ [.done]
  else []

/-- The event contributed by one raw item already consumed before a
mid-stream failure (only `output` events are re-playable; the loop
cannot have passed an explicit done item, since it returns there). -/
def outputEventOf (e : JsVal) : Option ReplicateEvent :=
  match classify e with
  | .out s => some (.output s)
  | _ => none

/-- Outcome of the backend interaction inside `streamModelResponse`:
either the native stream ran to completion over the given raw items, or
it failed after consuming a prefix of raw items and the synchronous
fallback call returned the given prediction. -/
inductive StreamAttempt where
  | ok (raws : List JsVal)
  | failed (consumed : List JsVal) (fallback : Prediction)

/-- Model of `ApiService.streamModelResponse` (src/api-service.ts:163-318) as a
function of the backend outcome: the native path, or the events already
yielded before the failure followed by the fallback events. -/
def streamModelResponse : StreamAttempt → List ReplicateEvent
  | .ok raws => streamNative raws
  | .failed consumed p => consumed.filterMap outputEventOf ++ streamFallback p

/-- The texts of the `output` events of an event sequence. -/
def outputTexts (evs : List ReplicateEvent) : List String :=
  evs.filterMap (fun e => match e with | .output d => some d | .done => none)

example : streamNative [.vstr "He", .vstr "llo"] =
    [.output "He", .output "llo", .done] := by decide

example : streamNative [.vstr "", .vstr "  ", .vnum 3, .vnull,
    .vobj [("event", .vstr "output"), ("data", .vstr "hi")],
    .vobj [("data", .vstr "yo")],
    .vobj [("event", .vstr "done"), ("data", .vundefined)],
    .vstr "after"] =
    [.output "hi", .output "yo", .done, .done] := by decide

example : streamFallback (.pstr "hello world") = [.output "hello world", .done] := by
  decide

example : streamFallback (.pstr "\x7b\x7d") = [.done] := by decide

example : streamFallback (.pstr "") = [] := by decide

/-- Zeroed usage counters, as attached to the final streaming chunk
(src/utils.ts:76-80 and 1233-1237). -/
structure Usage where
  prompt_tokens : Nat
  completion_tokens : Nat
  total_tokens : Nat
  deriving DecidableEq, Repr

/-- The `delta` member of a streaming choice; absent fields model
fields never assigned on the JS object. -/
structure Delta where
  role : Option String
  content : Option String
  deriving DecidableEq, Repr

/-- One element of the `choices` array of an SSE chunk
(src/utils.ts:51-58). -/
structure ChunkChoice where
  index : Nat
  delta : Delta
  finish_reason : Option String
  deriving DecidableEq, Repr

/-- The chunk object built by `createSSEChunk` (src/utils.ts:46-81);
`logprobs` is always `null` and `object` always
`"chat.completion.chunk"`, so neither is carried as data. -/
structure SSEChunk where
  id : String
  created : Nat
  model : String
  choices : List ChunkChoice
  usage : Option Usage
  deriving DecidableEq, Repr

/-- The object-construction part of `createSSEChunk`
(src/utils.ts:45-81): `delta.role` is set only for a truthy `role`
argument, `delta.content` only for a truthy `content` argument, and the
zeroed `usage` object is attached only when a usage argument is supplied
and `finish_reason === "stop"`.  `now` stands for
`Math.floor(Date.now() / 1000)`. -/
def buildSSEChunk (id model : String) (now : Nat)
    (content role finish_reason : Option String) (usage : Option Usage) : SSEChunk :=
  let delta0 : Delta := { role := none, content := none }
  let delta1 := match role with
    | some r => if r != "" then { delta0 with role := some r } else delta0
    | none => delta0
  let delta2 := match content with
    | some c => if c != "" then { delta1 with content := some c } else delta1
    | none => delta1
  let usageOut := match usage with
    | some _ => if finish_reason == some "stop" then
        some { prompt_tokens := 0, completion_tokens := 0, total_tokens := 0 }
      else none
    | none => none
  { id := id, created := now, model := model,
    choices := [{ index := 0, delta := delta2, finish_reason := finish_reason }],
    usage := usageOut }

/-- A lowercase hexadecimal digit. -/
def hexDigit (n : Nat) : Char :=
  if n < 10 then Char.ofNat (48 + n) else Char.ofNat (87 + (n % 16))

/-- Four lowercase hexadecimal digits, as in a JSON `\uXXXX` escape. -/
def hex4 (n : Nat) : String :=
  String.mk [hexDigit (n / 4096 % 16), hexDigit (n / 256 % 16),
    hexDigit (n / 16 % 16), hexDigit (n % 16)]

/-- How `JSON.stringify` escapes one character inside a string. -/
def jsonEscapeChar (c : Char) : String :=
  if c = '"' then "\\\""
  else if c = '\\' then "\\\\"
  else if c = '\n' then "\\n"
  else if c = '\r' then "\\r"
  else if c = '\t' then "\\t"
  else if c = '\x08' then "\\b"
  else if c = '\x0c' then "\\f"
  else if c.toNat < 0x20 then "\\u" ++ hex4 c.toNat
  else String.mk [c]

/-- Model of `JSON.stringify` on a string value. -/
def jsonStr (s : String) : String :=
  "\"" ++ String.join (s.toList.map jsonEscapeChar) ++ "\""

/-- JSON object braces around a member list. -/
def jObj (members : String) : String :=
  "\x7b" ++ members ++ "\x7d"

/-- Model of `JSON.stringify` on the `delta` member: fields appear in assignment
order (`role` first, then `content`), absent fields are not emitted. -/
def serializeDelta (d : Delta) : String :=
  jObj (String.intercalate ","
    ((match d.role with | some r => ["\"role\":" ++ jsonStr r] | none => []) ++
     (match d.content with | some c => ["\"content\":" ++ jsonStr c] | none => [])))

/-- Model of `JSON.stringify` on a nullable string. -/
def jsonOptStr : Option String → String
  | some s => jsonStr s
  | none => "null"

/-- Model of `JSON.stringify` on one choice (key order `index`, `delta`,
`finish_reason`, `logprobs`; `logprobs` is the constant `null`). -/
def serializeChoice (c : ChunkChoice) : String :=
  jObj ("\"index\":" ++ toString c.index ++ ",\"delta\":" ++ serializeDelta c.delta ++
    ",\"finish_reason\":" ++ jsonOptStr c.finish_reason ++ ",\"logprobs\":null")

/-- Model of `JSON.stringify` on the whole chunk, in the key order the source
builds it: `id`, `object`, `created`, `model`, `choices`, and, when
present, the `usage` object attached last (src/utils.ts:75-81). -/
def serializeSSEChunk (c : SSEChunk) : String :=
  jObj ("\"id\":" ++ jsonStr c.id ++
    ",\"object\":" ++ jsonStr "chat.completion.chunk" ++
    ",\"created\":" ++ toString c.created ++
    ",\"model\":" ++ jsonStr c.model ++
    ",\"choices\":[" ++ String.intercalate "," (c.choices.map serializeChoice) ++ "]" ++
    (match c.usage with
     | some u => ",\"usage\":" ++ jObj ("\"prompt_tokens\":" ++ toString u.prompt_tokens ++
         ",\"completion_tokens\":" ++ toString u.completion_tokens ++
         ",\"total_tokens\":" ++ toString u.total_tokens)
     | none => ""))

/-- Model of `createSSEChunk` (src/utils.ts:37-84): the serialized SSE
frame `data: <json>\n\n` for the chunk object. -/
def createSSEChunk (id model : String) (now : Nat)
    (content role finish_reason : Option String) (usage : Option Usage) : String :=
  "data: " ++ serializeSSEChunk (buildSSEChunk id model now content role finish_reason usage) ++ "\n\n"

/-- The zeroed usage object passed on the finish chunk
(src/utils.ts:1233-1237). -/
def usageInfo : Usage := { prompt_tokens := 0, completion_tokens := 0, total_tokens := 0 }

/-- The streaming loop of `handleStreamResponse` (src/utils.ts:1214-1249):
on the first event of any kind a role chunk is enqueued; an `output`
event (its data is a string by construction of `ReplicateEvent`)
enqueues a content chunk; a `done` event enqueues the finish chunk and
the literal `data: [DONE]` frame and breaks. -/
def handleStreamLoop (id model : String) (now : Nat) :
    Bool → List ReplicateEvent → List String
  | _, [] => []
  | isFirstEvent, ev :: rest =>
    let pre := if isFirstEvent then [createSSEChunk id model now none (some "assistant") none none]
      else []
    match ev with
    | .output d => pre ++ createSSEChunk id model now (some d) none none none ::
        handleStreamLoop id model now false rest
    | .done => pre ++ [createSSEChunk id model now none none (some "stop") (some usageInfo),
        "data: [DONE]\n\n"]

/-- The body stream produced by `handleStreamResponse`
(src/utils.ts:1192-1292) on a given internal event sequence, as the
ordered list of enqueued SSE frames. -/
def handleStreamResponse (id model : String) (now : Nat)
    (events : List ReplicateEvent) : List String :=
  handleStreamLoop id model now true events

example : handleStreamResponse "chatcmpl-1" "m" 7 [.output "He", .output "llo", .done] =
    ["data: " ++ jObj ("\"id\":\"chatcmpl-1\",\"object\":\"chat.completion.chunk\"," ++
        "\"created\":7,\"model\":\"m\",\"choices\":[" ++
        jObj "\"index\":0,\"delta\":\x7b\"role\":\"assistant\"\x7d,\"finish_reason\":null,\"logprobs\":null" ++ "]") ++ "\n\n",
     "data: " ++ jObj ("\"id\":\"chatcmpl-1\",\"object\":\"chat.completion.chunk\"," ++
        "\"created\":7,\"model\":\"m\",\"choices\":[" ++
        jObj "\"index\":0,\"delta\":\x7b\"content\":\"He\"\x7d,\"finish_reason\":null,\"logprobs\":null" ++ "]") ++ "\n\n",
     "data: " ++ jObj ("\"id\":\"chatcmpl-1\",\"object\":\"chat.completion.chunk\"," ++
        "\"created\":7,\"model\":\"m\",\"choices\":[" ++
        jObj "\"index\":0,\"delta\":\x7b\"content\":\"llo\"\x7d,\"finish_reason\":null,\"logprobs\":null" ++ "]") ++ "\n\n",
     "data: " ++ jObj ("\"id\":\"chatcmpl-1\",\"object\":\"chat.completion.chunk\"," ++
        "\"created\":7,\"model\":\"m\",\"choices\":[" ++
        jObj "\"index\":0,\"delta\":\x7b\x7d,\"finish_reason\":\"stop\",\"logprobs\":null" ++ "]" ++
        ",\"usage\":" ++ jObj "\"prompt_tokens\":0,\"completion_tokens\":0,\"total_tokens\":0") ++ "\n\n",
     "data: [DONE]\n\n"] := by
  set_option maxRecDepth 10000 in decide

/-- The image reference of an `image_url` content part (src/types.ts):
the wrapped `url` string, where the empty string stands for a falsy
(absent or empty) url. -/
structure ImageRef where
  url : String
  deriving DecidableEq, Repr

/-- A content part of a message (`ContentItem`, src/types.ts): a `type`
tag, an optional `text` payload and an optional `image_url` payload. -/
structure ContentItem where
  type : String
  text : Option String
  image_url : Option ImageRef
  deriving DecidableEq, Repr

/-- The `content` field of a message: a plain string or a sequence of
typed parts. -/
inductive MsgContent where
  | str (s : String)
  | parts (l : List ContentItem)
  deriving DecidableEq, Repr

/-- A chat message (`Message`, src/types.ts): a role (the empty string
standing for a falsy role) and an optional content. -/
structure Message where
  role : String
  content : Option MsgContent
  deriving DecidableEq, Repr

/-- Truthiness of `item.text` (`undefined` and `""` are falsy). -/
def itemTextTruthy (item : ContentItem) : Bool :=
  match item.text with
  | some t => t != ""
  | none => false

/-- Truthiness of `contentItem.image_url && contentItem.image_url.url`
(src/message-processor.ts:98). -/
def itemImageTruthy (item : ContentItem) : Bool :=
  match item.image_url with
  | some r => r.url != ""
  | none => false

/-- One iteration of the system-prompt accumulation loop
(src/message-processor.ts:60-71): string content is appended followed by
a newline; array content contributes each `text`-typed part with truthy
text followed by a newline. -/
def appendSysContent (acc : String) (m : Message) : String :=
  match m.content with
  | some (.str s) => acc ++ s ++ "\n"
  | some (.parts l) =>
    l.foldl (fun a item =>
      if item.type == "text" && itemTextTruthy item then a ++ item.text.getD "" ++ "\n"
      else a) acc
  | none => acc

/-- Model of `extractSystemPrompt` (src/message-processor.ts:50-82): the
trimmed concatenation of all system-message bodies, paired with the
working list after the in-place removal of the system messages (the
removal only happens when at least one system message is present). -/
def extractSystemPrompt (messages : List Message) : String × List Message :=
  let systemMessages := messages.filter (fun m => m.role == "system")
  if systemMessages.length > 0 then
    (jsTrim (systemMessages.foldl appendSysContent ""),
     messages.filter (fun m => !(m.role == "system")))
  else
    (jsTrim "", messages)

/-- The inner loop of `extractImageUrls` over one user message's parts
(src/message-processor.ts:94-105): image parts with a truthy url are
removed and their urls collected in order; text parts are kept; every
other part is dropped. -/
def stripImages : List ContentItem → List ContentItem × List String
  | [] => ([], [])
  | item :: rest =>
    let r := stripImages rest
    if item.type == "image_url" && itemImageTruthy item then
      (r.1, (item.image_url.map (fun i => i.url)).getD "" :: r.2)
    else if item.type == "text" then
      (item :: r.1, r.2)
    else r

/-- Model of `extractImageUrls` (src/message-processor.ts:89-111): the
working list with each user message's sequence content replaced by its
text-only parts, paired with the image urls collected in encounter
order. -/
def extractImageUrls : List Message → List Message × List String
  | [] => ([], [])
  | m :: rest =>
    let r := extractImageUrls rest
    if m.role == "user" then
      match m.content with
      | some (.parts l) =>
        let s := stripImages l
        ({ m with content := some (.parts s.1) } :: r.1, s.2 ++ r.2)
      | _ => (m :: r.1, r.2)
    else (m :: r.1, r.2)

/-- Whether the formatting loop emits a message
(src/message-processor.ts:122, `message.role && (message.content ||
Array.isArray(message.content))`): the role must be truthy and the
content either a truthy value or an array (arrays are always truthy in
JS, so an empty parts list still passes). -/
def messageEmitted (m : Message) : Bool :=
  m.role != "" &&
    (match m.content with
     | some (.str s) => s != ""
     | some (.parts _) => true
     | none => false)

/-- The text of an emitted message (src/message-processor.ts:127-137):
for sequence content, the space-joined texts of the `text`-typed parts
(absent text read as `""`); for string content, the string itself. -/
def messageText (m : Message) : String :=
  match m.content with
  | some (.parts l) =>
    String.intercalate " "
      ((l.filter (fun item => item.type == "text")).map (fun item => item.text.getD ""))
  | some (.str s) => s
  | none => ""

/-- Model of `formatMessagesToConversation`
(src/message-processor.ts:118-146): the left-fold accumulation of
`"<role>: <text>\n"` over the emitted messages. -/
def formatMessagesToConversation (messages : List Message) : String :=
  messages.foldl (fun acc m =>
    if messageEmitted m then acc ++ m.role ++ ": " ++ messageText m ++ "\n"
    else acc) ""

/-- The `MAX_TOKENS_CONFIG` record (src/config.ts:30-34). -/
structure MaxTokensConfig where
  MINIMUM : Int
  MAXIMUM : Int
  DEFAULT : Int
  deriving DecidableEq, Repr

/-- The configured clamping bounds (src/config.ts:30-34). -/
def MAX_TOKENS_CONFIG : MaxTokensConfig :=
  { MINIMUM := 1024, MAXIMUM := 64000, DEFAULT := 16384 }

/-- Model of `validateMaxTokens` (src/config.ts:90-98): `!maxTokens`
holds for an absent argument and for `0`, and together with any value
below the minimum yields the default; values above the maximum are
clamped to the maximum; everything else passes through. -/
def validateMaxTokens (maxTokens : Option Int) : Int :=
  match maxTokens with
  | none => MAX_TOKENS_CONFIG.DEFAULT
  | some v =>
    if v == 0 || v < MAX_TOKENS_CONFIG.MINIMUM then MAX_TOKENS_CONFIG.DEFAULT
    else if v > MAX_TOKENS_CONFIG.MAXIMUM then MAX_TOKENS_CONFIG.MAXIMUM
    else v

/-- The backend-ready payload `ModelInput` (src/types.ts); the constant
`max_image_resolution` is the rational one half. -/
structure ModelInput where
  prompt : String
  max_tokens : Int
  system_prompt : String
  max_image_resolution : ℚ
  image : Option String
  deriving DecidableEq, Repr

/-- Model of `buildModelInput` (src/message-processor.ts:156-188): the
input record with the validated token budget; the `image` field is set
only when at least one url was collected, to the single url or to the
last one. -/
def buildModelInput (userContent : String) (systemPrompt : String)
    (imageUrls : List String) (maxTokens : Option Int) : ModelInput :=
  let validatedMaxTokens := validateMaxTokens maxTokens
  let input : ModelInput :=
    { prompt := userContent, max_tokens := validatedMaxTokens,
      system_prompt := systemPrompt, max_image_resolution := (1 : ℚ) / 2,
      image := none }
  if imageUrls.length > 0 then
    if imageUrls.length = 1 then
      { input with image := imageUrls[0]? }
    else
      { input with image := imageUrls[imageUrls.length - 1]? }
  else input

/-- The request body as far as `processMessages` reads it
(src/types.ts): `messages` is `none` when the field is not an array. -/
structure RequestBody where
  messages : Option (List Message)
  max_tokens : Option Int
  deriving DecidableEq, Repr

/-- The result triple of `processMessages`. -/
structure ProcResult where
  userContent : Option String
  systemPrompt : String
  imageUrls : List String
  deriving DecidableEq, Repr

/-- Model of `processMessages` (src/message-processor.ts:10-43) on
well-typed data: an early return when `messages` is not an array or is
empty, otherwise the pipeline of system-prompt extraction, image
extraction and conversation formatting over a deep copy of the list
(`JSON.parse(JSON.stringify(...))` is the identity on well-typed
message data). -/
def processMessages (requestBody : RequestBody) : ProcResult :=
  match requestBody.messages with
  | none => { userContent := none, systemPrompt := "", imageUrls := [] }
  | some msgs =>
    if msgs.length = 0 then { userContent := none, systemPrompt := "", imageUrls := [] }
    else
      let messagesClone := msgs
      let e := extractSystemPrompt messagesClone
      let i := extractImageUrls e.2
      { userContent := some (formatMessagesToConversation i.1),
        systemPrompt := e.1, imageUrls := i.2 }

example :
    processMessages
      { messages := some
          [{ role := "system", content := some (.str "be nice") },
           { role := "user", content := some (.parts
              [{ type := "text", text := some "look", image_url := none },
               { type := "image_url", text := none, image_url := some { url := "http://a/1.png" } },
               { type := "image_url", text := none, image_url := some { url := "http://a/2.png" } }]) },
           { role := "assistant", content := some (.str "ok") }],
        max_tokens := some 2048 } =
    { userContent := some "user: look\nassistant: ok\n",
      systemPrompt := "be nice",
      imageUrls := ["http://a/1.png", "http://a/2.png"] } := by decide

example :
    (buildModelInput "c" "s" ["u1", "u2"] (some 2048)).image = some "u2" := by decide

example : validateMaxTokens (some 70000) = 64000 := by decide

/-- JavaScript truthiness of a value. -/
def jsTruthy : JsVal → Bool
  | .vstr s => s != ""
  | .vnum n => n != 0
  | .vbool b => b
  | .vnull => false
  | .vundefined => false
  | .varr _ => true
  | .vobj _ => true

mutual

/-- JavaScript string coercion, as triggered by `+=` and by template
literals: primitives print their canonical form, arrays join their
elements with commas, plain objects print `[object Object]`. -/
def jsToString : JsVal → String
  | .vstr s => s
  | .vnum n => toString n
  | .vbool b => if b then "true" else "false"
  | .vnull => "null"
  | .vundefined => "undefined"
  | .varr elems => String.intercalate "," (jsToStringElems elems)
  | .vobj _ => "[object Object]"

/-- Element strings for array coercion (`null` and `undefined` elements
print as the empty string). -/
def jsToStringElems : List JsVal → List String
  | [] => []
  | e :: rest =>
    (match e with
     | .vnull => ""
     | .vundefined => ""
     | v => jsToString v) :: jsToStringElems rest

end

mutual

/-- The effect of `JSON.parse(JSON.stringify(v))` on one value in array
position: `undefined` becomes `null`, containers are rebuilt
recursively, primitives survive unchanged. -/
def jsonRoundTrip : JsVal → JsVal
  | .vundefined => .vnull
  | .vnum n => .vnum n
  | .vstr s => .vstr s
  | .vbool b => .vbool b
  | .vnull => .vnull
  | .varr elems => .varr (jsonRoundTripList elems)
  | .vobj fields => .vobj (jsonRoundTripFields fields)

/-- Round trip of array elements. -/
def jsonRoundTripList : List JsVal → List JsVal
  | [] => []
  | e :: rest => jsonRoundTrip e :: jsonRoundTripList rest

/-- Round trip of object fields; fields holding `undefined` are dropped
by `JSON.stringify`. -/
def jsonRoundTripFields : List (String × JsVal) → List (String × JsVal)
  | [] => []
  | (k, v) :: rest =>
    match v with
    | .vundefined => jsonRoundTripFields rest
    | w => (k, jsonRoundTrip w) :: jsonRoundTripFields rest

end

/-- Property access `v.k` in the dynamic model: reading a property of
`null` or `undefined` throws a `TypeError`; on any other value the
lookup yields the field value or `undefined`. -/
def jsGet (v : JsVal) (k : String) : Except String JsVal :=
  match v with
  | .vnull => .error ("TypeError: cannot read " ++ k ++ " of null")
  | .vundefined => .error ("TypeError: cannot read " ++ k ++ " of undefined")
  | w => .ok (getField w k)

/-- Property assignment `v.k = val` in the dynamic model (only ever
reached on object values; elsewhere a sloppy-mode no-op). -/
def setField (v : JsVal) (k : String) (val : JsVal) : JsVal :=
  match v with
  | .vobj fields =>
    if fields.any (fun p => p.1 == k) then
      .vobj (fields.map (fun p => if p.1 == k then (p.1, val) else p))
    else .vobj (fields ++ [(k, val)])
  | other => other

/-- Dynamic model of `extractSystemPrompt` (src/message-processor.ts:50-82):
any `TypeError` raised while touching a malformed message propagates as
an `Except.error`. -/
def jsExtractSystemPrompt (messages : List JsVal) : Except String (String × List JsVal) := do
  let systemMessages ← messages.filterM (fun m => do
    let r ← jsGet m "role"
    pure (isStrVal r "system"))
  if systemMessages.length > 0 then
    let systemPrompt ← systemMessages.foldlM (fun acc sysMsg => do
      let c ← jsGet sysMsg "content"
      match c with
      | .vstr s => pure (acc ++ s ++ "\n")
      | .varr items =>
        items.foldlM (fun a item => do
          let ty ← jsGet item "type"
          if isStrVal ty "text" then
            let tx ← jsGet item "text"
            if jsTruthy tx then pure (a ++ jsToString tx ++ "\n") else pure a
          else pure a) acc
      | _ => pure acc) ""
    let nonSystemMessages ← messages.filterM (fun m => do
      let r ← jsGet m "role"
      pure (!(isStrVal r "system")))
    pure (jsTrim systemPrompt, nonSystemMessages)
  else
    pure (jsTrim "", messages)

/-- Dynamic model of the inner part loop of `extractImageUrls`
(src/message-processor.ts:96-105); the error value carries the urls
already pushed onto the shared `imageUrls` array at the moment of the
throw. -/
def jsStripItems : List JsVal → List String → Except (List String) (List JsVal × List String)
  | [], urls => .ok ([], urls)
  | item :: rest, urls =>
    match jsGet item "type" with
    | .error _ => .error urls
    | .ok ty =>
      if isStrVal ty "image_url" then
        let iu := getField item "image_url"
        if jsTruthy iu then
          let u := getField iu "url"
          if jsTruthy u then jsStripItems rest (urls ++ [jsToString u])
          else jsStripItems rest urls
        else jsStripItems rest urls
      else if isStrVal ty "text" then
        match jsStripItems rest urls with
        | .error u => .error u
        | .ok (keep, u) => .ok (item :: keep, u)
      else jsStripItems rest urls

/-- Dynamic model of the message loop of `extractImageUrls`
(src/message-processor.ts:89-111). -/
def jsExtractImageUrlsGo : List JsVal → List String → Except (List String) (List JsVal × List String)
  | [], urls => .ok ([], urls)
  | m :: rest, urls =>
    match jsGet m "role" with
    | .error _ => .error urls
    | .ok r =>
      if isStrVal r "user" then
        match getField m "content" with
        | .varr items =>
          match jsStripItems items urls with
          | .error u => .error u
          | .ok (textOnly, urls2) =>
            match jsExtractImageUrlsGo rest urls2 with
            | .error u => .error u
            | .ok (rest2, u) => .ok (setField m "content" (.varr textOnly) :: rest2, u)
        | _ =>
          match jsExtractImageUrlsGo rest urls with
          | .error u => .error u
          | .ok (rest2, u) => .ok (m :: rest2, u)
      else
        match jsExtractImageUrlsGo rest urls with
        | .error u => .error u
        | .ok (rest2, u) => .ok (m :: rest2, u)

/-- Dynamic model of `formatMessagesToConversation`
(src/message-processor.ts:118-146). -/
def jsFormatMessages (messages : List JsVal) : Except String String :=
  messages.foldlM (fun acc m => do
    let role ← jsGet m "role"
    if jsTruthy role then
      let content ← jsGet m "content"
      if jsTruthy content || (match content with | .varr _ => true | _ => false) then
        match content with
        | .varr items => do
          let textItems ← items.filterM (fun it => do
            let ty ← jsGet it "type"
            pure (isStrVal ty "text"))
          let texts ← textItems.mapM (fun it => do
            let tx ← jsGet it "text"
            pure (if jsTruthy tx then jsToString tx else ""))
          pure (acc ++ jsToString role ++ ": " ++ String.intercalate " " texts ++ "\n")
        | _ => pure (acc ++ jsToString role ++ ": " ++ jsToString content ++ "\n")
      else pure acc
    else pure acc) ""

/-- The `try` block of `processMessages` (src/message-processor.ts:23-42)
in the dynamic model.  An `Except.error` outcome is the result the
`catch` clause returns: `userContent` is still `undefined`, while
`systemPrompt` and `imageUrls` keep whatever the completed stages had
already produced (the `imageUrls` array is mutated in place, so urls
pushed before the throw survive into the catch result). -/
def jsProcessTry (msgs : List JsVal) : Except ProcResult ProcResult :=
  let messagesClone := jsonRoundTripList msgs
  match jsExtractSystemPrompt messagesClone with
  | .error _ => .error { userContent := none, systemPrompt := "", imageUrls := [] }
  | .ok (systemPrompt, msgs1) =>
    match jsExtractImageUrlsGo msgs1 [] with
    | .error urlsSoFar =>
      .error { userContent := none, systemPrompt := systemPrompt, imageUrls := urlsSoFar }
    | .ok (msgs2, imageUrls) =>
      match jsFormatMessages msgs2 with
      | .error _ =>
        .error { userContent := none, systemPrompt := systemPrompt, imageUrls := imageUrls }
      | .ok userContent =>
        .ok { userContent := some userContent, systemPrompt := systemPrompt,
              imageUrls := imageUrls }

/-- Dynamic model of `processMessages` (src/message-processor.ts:10-43):
a non-array or empty `messages` value short-circuits to the undefined
conversation result; otherwise the `try` block runs with the `catch`
clause folded in. -/
def jsProcessMessages (messages : JsVal) : ProcResult :=
  match messages with
  | .varr msgs =>
    if msgs.length = 0 then { userContent := none, systemPrompt := "", imageUrls := [] }
    else
      match jsProcessTry msgs with
      | .ok r => r
      | .error r => r
  | _ => { userContent := none, systemPrompt := "", imageUrls := [] }

example : jsProcessMessages (.vstr "nope") =
    { userContent := none, systemPrompt := "", imageUrls := [] } := by decide

example : jsProcessMessages (.varr [.vnull]) =
    { userContent := none, systemPrompt := "", imageUrls := [] } := by decide

example : jsProcessMessages (.varr
    [.vobj [("role", .vstr "user"), ("content", .varr
      [.vobj [("type", .vstr "image_url"),
              ("image_url", .vobj [("url", .vstr "http://x/1.png")])],
       .vnull])]]) =
    { userContent := none, systemPrompt := "", imageUrls := ["http://x/1.png"] } := by decide

example : jsProcessMessages (.varr
    [.vobj [("role", .vstr "user"), ("content", .vstr "hi")]]) =
    { userContent := some "user: hi\n", systemPrompt := "", imageUrls := [] } := by decide

/-- An explicit store for the mutable entities `processMessages`
touches: message objects and message arrays (arrays hold references to
message objects).  References are indices; allocation appends. -/
structure Store where
  objs : List Message
  arrs : List (List Nat)
  deriving DecidableEq, Repr

/-- Dereference a message-object reference. -/
def readObj (s : Store) (r : Nat) : Message :=
  (s.objs[r]?).getD { role := "", content := none }

/-- Dereference a message-array reference. -/
def readArr (s : Store) (a : Nat) : List Nat :=
  (s.arrs[a]?).getD []

/-- Overwrite a message object in place. -/
def writeObj (s : Store) (r : Nat) (m : Message) : Store :=
  { s with objs := s.objs.set r m }

/-- Overwrite a message array in place (models `messages.length = 0`
followed by `messages.push(...)`, src/message-processor.ts:75-76). -/
def writeArr (s : Store) (a : Nat) (l : List Nat) : Store :=
  { s with arrs := s.arrs.set a l }

/-- Allocate fresh copies of the referenced message objects, in order:
the object part of `JSON.parse(JSON.stringify(requestBody.messages))`
(src/message-processor.ts:25). -/
def cloneObjs (s : Store) : List Nat → Store × List Nat
  | [] => (s, [])
  | r :: rest =>
    let m := readObj s r
    let nr := s.objs.length
    let t := cloneObjs { s with objs := s.objs ++ [m] } rest
    (t.1, nr :: t.2)

/-- Allocate a fresh array over fresh object copies: the deep copy
`messagesClone` of `processMessages` (src/message-processor.ts:25). -/
def cloneMessages (s : Store) (a : Nat) : Store × Nat :=
  let c := cloneObjs s (readArr s a)
  ({ c.1 with arrs := c.1.arrs ++ [c.2] }, c.1.arrs.length)

/-- Store-level `extractSystemPrompt`: reads the referenced objects and
replaces the array contents (in place, at the same array reference)
with the non-system references when system messages are present. -/
def heapExtractSystemPrompt (s : Store) (a : Nat) : Store × String :=
  let refs := readArr s a
  let sysRefs := refs.filter (fun r => (readObj s r).role == "system")
  if sysRefs.length > 0 then
    (writeArr s a (refs.filter (fun r => !((readObj s r).role == "system"))),
     jsTrim (sysRefs.foldl (fun acc r => appendSysContent acc (readObj s r)) ""))
  else (s, jsTrim "")

/-- Store-level message loop of `extractImageUrls`: each user message
with sequence content is overwritten in place (at its own object
reference) with the text-only content, while its image urls accumulate. -/
def heapStripLoop : Store → List Nat → List String → Store × List String
  | s, [], urls => (s, urls)
  | s, r :: rest, urls =>
    let m := readObj s r
    if m.role == "user" then
      match m.content with
      | some (.parts l) =>
        let t := stripImages l
        heapStripLoop (writeObj s r { m with content := some (.parts t.1) }) rest (urls ++ t.2)
      | _ => heapStripLoop s rest urls
    else heapStripLoop s rest urls

/-- Store-level `extractImageUrls` over the array at `a`. -/
def heapExtractImageUrls (s : Store) (a : Nat) : Store × List String :=
  heapStripLoop s (readArr s a) []

/-- Store-level `formatMessagesToConversation` (read-only). -/
def heapFormat (s : Store) (a : Nat) : String :=
  formatMessagesToConversation ((readArr s a).map (readObj s))

/-- Store-level `processMessages` (src/message-processor.ts:10-43): the
caller's array reference (`none` models a non-array `messages` field)
is first deep-copied; all subsequent stages work on the copy. -/
def processMessagesTracked (s : Store) (msgsRef : Option Nat) : Store × ProcResult :=
  match msgsRef with
  | none => (s, { userContent := none, systemPrompt := "", imageUrls := [] })
  | some a =>
    if (readArr s a).length = 0 then
      (s, { userContent := none, systemPrompt := "", imageUrls := [] })
    else
      let c := cloneMessages s a
      let e := heapExtractSystemPrompt c.1 c.2
      let i := heapExtractImageUrls e.1 c.2
      (i.1, { userContent := some (heapFormat i.1 c.2), systemPrompt := e.2,
              imageUrls := i.2 })

example :
    processMessagesTracked
      { objs := [{ role := "system", content := some (.str "s" ) },
                 { role := "user", content := some (.str "hi") }],
        arrs := [[0, 1]] }
      (some 0) =
    ({ objs := [{ role := "system", content := some (.str "s" ) },
                { role := "user", content := some (.str "hi") },
                { role := "system", content := some (.str "s" ) },
                { role := "user", content := some (.str "hi") }],
       arrs := [[0, 1], [3]] },
     { userContent := some "user: hi\n", systemPrompt := "s", imageUrls := [] }) := by decide

/-- Model of `String.prototype.trimEnd`: only trailing whitespace is
removed (used to state claims that speak of trailing trimming only). -/
def jsTrimEnd (s : String) : String :=
  String.mk ((s.toList.reverse.dropWhile isJsWhitespace).reverse)

/-- The newline-join of a list of lines, as in the specification
phrase "newline-joined text bodies, one per line". -/
def newlineJoin : List String → String
  | [] => ""
  | [x] => x
  | x :: rest => x ++ "\n" ++ newlineJoin rest

lemma strJoin_cons (x : String) (l : List String) :
    String.join (x :: l) = x ++ String.join l := by
  show List.foldl (fun r t => r ++ t) ("" ++ x) l = x ++ String.join l
  have key : ∀ (l : List String) (a : String),
      List.foldl (fun r t => r ++ t) a l = a ++ List.foldl (fun r t => r ++ t) "" l := by
    intro l
    induction l with
    | nil => intro a; simp
    | cons y ys ih =>
      intro a
      rw [List.foldl_cons, List.foldl_cons, ih, ih ("" ++ y)]
      simp [String.append_assoc]
  rw [key]
  simp [String.join]

lemma strJoin_append (a b : List String) :
    String.join (a ++ b) = String.join a ++ String.join b := by
  induction a with
  | nil => simp [String.join]
  | cons x xs ih => simp [strJoin_cons, ih, String.append_assoc]

/-- A left fold that appends a per-element string equals the
concatenation of those strings. -/
lemma foldl_str_acc {α : Type} (g : α → String) (step : String → α → String)
    (hstep : ∀ acc x, step acc x = acc ++ g x) (l : List α) :
    ∀ acc : String, List.foldl step acc l = acc ++ String.join (l.map g) := by
  induction l with
  | nil => intro acc; simp [String.join]
  | cons x xs ih =>
    intro acc
    rw [List.foldl_cons, hstep, ih, List.map_cons, strJoin_cons, String.append_assoc]

/-- claim C8: `validateMaxTokens` clamps: absent or `0` yields the
default `16384`; any value below the minimum `1024` yields the default;
any value above the maximum `64000` yields the maximum; any value in
`[1024, 64000]` passes through unchanged. -/
theorem claim_C8 (v w u : Int)
    (hv : v < MAX_TOKENS_CONFIG.MINIMUM)
    (hw : w > MAX_TOKENS_CONFIG.MAXIMUM)
    (hu1 : MAX_TOKENS_CONFIG.MINIMUM ≤ u) (hu2 : u ≤ MAX_TOKENS_CONFIG.MAXIMUM) :
    validateMaxTokens none = MAX_TOKENS_CONFIG.DEFAULT ∧
    validateMaxTokens (some 0) = MAX_TOKENS_CONFIG.DEFAULT ∧
    validateMaxTokens (some v) = MAX_TOKENS_CONFIG.DEFAULT ∧
    validateMaxTokens (some w) = MAX_TOKENS_CONFIG.MAXIMUM ∧
    validateMaxTokens (some u) = u ∧
    MAX_TOKENS_CONFIG.DEFAULT = 16384 ∧
    MAX_TOKENS_CONFIG.MINIMUM = 1024 ∧
    MAX_TOKENS_CONFIG.MAXIMUM = 64000 := by
  simp only [MAX_TOKENS_CONFIG] at hv hw hu1 hu2
  refine ⟨rfl, by decide, ?_, ?_, ?_, rfl, rfl, rfl⟩
  · simp [validateMaxTokens, MAX_TOKENS_CONFIG, hv]
  · have h1 : ¬(w == 0 || decide (w < (1024 : Int))) = true := by
      simp; omega
    simp [validateMaxTokens, MAX_TOKENS_CONFIG, h1, hw]
  · have h1 : ¬(u == 0 || decide (u < (1024 : Int))) = true := by
      simp; omega
    have h2 : ¬(u > (64000 : Int)) := by omega
    simp [validateMaxTokens, MAX_TOKENS_CONFIG, h1, h2]

theorem claim_C8_witness :
    (-5 : Int) < MAX_TOKENS_CONFIG.MINIMUM ∧
    (70000 : Int) > MAX_TOKENS_CONFIG.MAXIMUM ∧
    MAX_TOKENS_CONFIG.MINIMUM ≤ (2048 : Int) ∧ (2048 : Int) ≤ MAX_TOKENS_CONFIG.MAXIMUM ∧
    (validateMaxTokens none = MAX_TOKENS_CONFIG.DEFAULT ∧
     validateMaxTokens (some 0) = MAX_TOKENS_CONFIG.DEFAULT ∧
     validateMaxTokens (some (-5)) = MAX_TOKENS_CONFIG.DEFAULT ∧
     validateMaxTokens (some 70000) = MAX_TOKENS_CONFIG.MAXIMUM ∧
     validateMaxTokens (some 2048) = 2048 ∧
     MAX_TOKENS_CONFIG.DEFAULT = 16384 ∧
     MAX_TOKENS_CONFIG.MINIMUM = 1024 ∧
     MAX_TOKENS_CONFIG.MAXIMUM = 64000) :=
  ⟨by decide, by decide, by decide, by decide,
   claim_C8 (-5) 70000 2048 (by decide) (by decide) (by decide) (by decide)⟩

lemma valid_eq_vstr (v : JsVal) (h : isValidTextContent v = true) :
    v = .vstr (strVal v) := by
  cases v
  case vstr s => rfl
  all_goals simp [isValidTextContent] at h

lemma classify_out_valid (e : JsVal) (s : String) (h : classify e = .out s) :
    isValidTextContent (.vstr s) = true := by
  unfold classify at h
  dsimp only at h
  split at h
  · rename_i hv
    have he := valid_eq_vstr e hv
    rw [Classified.out.injEq] at h
    rw [← h]
    rw [he] at hv
    simpa [strVal] using hv
  · split at h
    · split at h
      · split at h
        · rename_i hc
          rw [Classified.out.injEq] at h
          rw [Bool.and_eq_true] at hc
          have hv := hc.2
          have he := valid_eq_vstr _ hv
          rw [← h]
          rw [he] at hv
          simpa [strVal] using hv
        · split at h
          · exact absurd h (by simp)
          · exact absurd h (by simp)
      · split at h
        · rename_i hc
          rw [Classified.out.injEq] at h
          rw [Bool.and_eq_true] at hc
          have hv := hc.2
          have he := valid_eq_vstr _ hv
          rw [← h]
          rw [he] at hv
          simpa [strVal] using hv
        · exact absurd h (by simp)
    · exact absurd h (by simp)

lemma streamNative_output_valid (raws : List JsVal) (d : String)
    (h : ReplicateEvent.output d ∈ streamNative raws) :
    isValidTextContent (.vstr d) = true := by
  induction raws with
  | nil => simp [streamNative] at h
  | cons e rest ih =>
    unfold streamNative at h
    cases hc : classify e with
    | out s =>
      rw [hc] at h
      rcases List.mem_cons.mp h with h1 | h2
      · have : d = s := by
          injection h1
        exact this ▸ classify_out_valid e s hc
      · exact ih h2
    | doneEv => rw [hc] at h; simp at h
    | skip => rw [hc] at h; exact ih h

lemma streamFallback_output_valid (p : Prediction) (d : String)
    (h : ReplicateEvent.output d ∈ streamFallback p) :
    isValidTextContent (.vstr d) = true := by
  unfold streamFallback at h
  split at h
  · rcases List.mem_append.mp h with h1 | h2
    · split at h1
      · rcases List.mem_map.mp h1 with ⟨c, hc, hcd⟩
        have : d = c := by injection hcd.symm
        subst this
        exact (List.mem_filter.mp hc).2
      · simp at h1
    · simp at h2
  · simp at h

lemma filterMap_output_valid (consumed : List JsVal) (d : String)
    (h : ReplicateEvent.output d ∈ consumed.filterMap outputEventOf) :
    isValidTextContent (.vstr d) = true := by
  rcases List.mem_filterMap.mp h with ⟨e, _, he⟩
  unfold outputEventOf at he
  cases hc : classify e with
  | out s =>
    rw [hc] at he
    simp only [Option.some.injEq] at he
    have : d = s := (ReplicateEvent.output.inj he).symm
    exact this ▸ classify_out_valid e s hc
  | doneEv => rw [hc] at he; simp at he
  | skip => rw [hc] at he; simp at he

/-- claim C1: every `output` event yielded by `streamModelResponse`,
on the native streaming path or on the fallback path, carries a
non-empty string whose trimmed form is none of the sentinels `""`,
`"{}"`, `"[]"`, `"null"`, `"undefined"`. -/
theorem claim_C1 (att : StreamAttempt) (d : String)
    (h : ReplicateEvent.output d ∈ streamModelResponse att) :
    d ≠ "" ∧ jsTrim d ≠ "" ∧ jsTrim d ≠ "\x7b\x7d" ∧ jsTrim d ≠ "[]" ∧
    jsTrim d ≠ "null" ∧ jsTrim d ≠ "undefined" := by
  have hv : isValidTextContent (.vstr d) = true := by
    cases att with
    | ok raws => exact streamNative_output_valid raws d h
    | failed consumed p =>
      simp only [streamModelResponse] at h
      rcases List.mem_append.mp h with h1 | h2
      · exact filterMap_output_valid consumed d h1
      · exact streamFallback_output_valid p d h2
  simp only [isValidTextContent] at hv
  by_cases hlen : d.length = 0
  · rw [if_pos hlen] at hv
    exact absurd hv (by simp)
  · rw [if_neg hlen] at hv
    refine ⟨fun he => hlen (by rw [he]; rfl), ?_, ?_, ?_, ?_, ?_⟩
    all_goals intro he; rw [he] at hv; exact absurd hv (by decide)

theorem claim_C1_witness :
    ("hi" : String) ≠ "" ∧ jsTrim "hi" ≠ "" ∧ jsTrim "hi" ≠ "\x7b\x7d" ∧
    jsTrim "hi" ≠ "[]" ∧ jsTrim "hi" ≠ "null" ∧ jsTrim "hi" ≠ "undefined" :=
  claim_C1 (.ok [.vstr "hi"]) "hi" (by decide)

/-- Whether a raw item is an explicit done item: a truthy object with
`event` and `data` fields whose event tag is `"done"` or `"completed"`. -/
def isDoneItem (e : JsVal) : Bool :=
  match classify e with
  | .doneEv => true
  | _ => false

lemma streamNative_stops_at_done (e : JsVal) (hd : classify e = .doneEv) :
    ∀ pre post : List JsVal,
      streamNative (pre ++ e :: post) = streamNative (pre ++ [e]) := by
  intro pre
  induction pre with
  | nil =>
    intro post
    simp only [List.nil_append]
    unfold streamNative
    rw [hd]
  | cons x xs ih =>
    intro post
    simp only [List.cons_append]
    unfold streamNative
    cases classify x with
    | out s => rw [ih post]
    | doneEv => rfl
    | skip => rw [ih post]

lemma done_mem_streamNative (raws : List JsVal) :
    ReplicateEvent.done ∈ streamNative raws := by
  induction raws with
  | nil => simp [streamNative]
  | cons e rest ih =>
    unfold streamNative
    cases classify e with
    | out s => exact List.mem_cons_of_mem _ ih
    | doneEv => simp
    | skip => exact ih

lemma streamNative_no_done_shape (raws : List JsVal)
    (h : ∀ x ∈ raws, isDoneItem x = false) :
    streamNative raws = raws.filterMap outputEventOf ++ [ReplicateEvent.done] := by
  induction raws with
  | nil => rfl
  | cons e rest ih =>
    have he : isDoneItem e = false := h e (List.mem_cons_self e rest)
    have hrest : ∀ x ∈ rest, isDoneItem x = false := fun x hx =>
      h x (List.mem_cons_of_mem e hx)
    unfold streamNative
    rw [List.filterMap_cons]
    unfold outputEventOf
    cases hc : classify e with
    | out s => rw [ih hrest]; rfl
    | doneEv => rw [isDoneItem, hc] at he; simp at he
    | skip => exact ih hrest

lemma done_not_mem_filterMap_outputs (raws : List JsVal) :
    ReplicateEvent.done ∉ raws.filterMap outputEventOf := by
  intro hmem
  rcases List.mem_filterMap.mp hmem with ⟨e, _, he⟩
  unfold outputEventOf at he
  cases hc : classify e <;> rw [hc] at he <;> simp at he

/-- claim C4: an explicit done item makes the native path emit `done`
and consume no further raw items (the events are those of the sequence
truncated right after the done item); and a raw sequence free of
explicit done items produces exactly one `done`, at the very end. -/
theorem claim_C4 (pre post raws : List JsVal) (e : JsVal)
    (hd : isDoneItem e = true) (hnd : ∀ x ∈ raws, isDoneItem x = false) :
    (streamNative (pre ++ e :: post) = streamNative (pre ++ [e]) ∧
     ReplicateEvent.done ∈ streamNative (pre ++ e :: post)) ∧
    ((streamNative raws).count ReplicateEvent.done = 1 ∧
     (streamNative raws).getLast? = some ReplicateEvent.done) := by
  have hde : classify e = .doneEv := by
    unfold isDoneItem at hd
    cases hc : classify e
    case out s => rw [hc] at hd; simp at hd
    case doneEv => rfl
    case skip => rw [hc] at hd; simp at hd
  refine ⟨⟨streamNative_stops_at_done e hde pre post, done_mem_streamNative _⟩, ?_, ?_⟩
  · rw [streamNative_no_done_shape raws hnd, List.count_append]
    rw [List.count_eq_zero.mpr (done_not_mem_filterMap_outputs raws)]
    rfl
  · rw [streamNative_no_done_shape raws hnd]
    exact List.getLast?_concat _

theorem claim_C4_witness :
    (streamNative ([JsVal.vstr "a"] ++
        JsVal.vobj [("event", .vstr "done"), ("data", .vnull)] :: [JsVal.vstr "b"]) =
      streamNative ([JsVal.vstr "a"] ++
        [JsVal.vobj [("event", .vstr "done"), ("data", .vnull)]]) ∧
     ReplicateEvent.done ∈ streamNative ([JsVal.vstr "a"] ++
        JsVal.vobj [("event", .vstr "done"), ("data", .vnull)] :: [JsVal.vstr "b"])) ∧
    ((streamNative [JsVal.vstr "x", JsVal.vnum 0]).count ReplicateEvent.done = 1 ∧
     (streamNative [JsVal.vstr "x", JsVal.vnum 0]).getLast? = some ReplicateEvent.done) :=
  claim_C4 [JsVal.vstr "a"] [JsVal.vstr "b"] [JsVal.vstr "x", JsVal.vnum 0]
    (JsVal.vobj [("event", .vstr "done"), ("data", .vnull)])
    (by decide) (by decide)

/-- claim C3 counterexample: with the native stream failing at open and
the synchronous fallback returning the text `"{}"`, the claim would
demand one `Output` per 15-character slice (here the single slice
`"{}"`) re-concatenating to the original text, but the code emits no
`Output` at all: the whole content is rejected by the validity filter
and only `Done` is emitted. -/
theorem claim_C3_counterexample :
    streamModelResponse (.failed [] (.pstr "\x7b\x7d")) = [ReplicateEvent.done] ∧
    (chunks15 ("\x7b\x7d".toList)).map String.mk = ["\x7b\x7d"] ∧
    outputTexts (streamModelResponse (.failed [] (.pstr "\x7b\x7d"))) = [] ∧
    String.join (outputTexts (streamModelResponse (.failed [] (.pstr "\x7b\x7d")))) ≠
      "\x7b\x7d" := by
  refine ⟨by decide, by decide, by decide, by decide⟩

lemma chunks15Aux_join (fuel : Nat) :
    ∀ l : List Char, l.length ≤ fuel → (chunks15Aux fuel l).flatten = l := by
  induction fuel with
  | zero =>
    intro l hl
    have : l = [] := List.length_eq_zero.mp (Nat.le_zero.mp hl)
    subst this
    rfl
  | succ n ih =>
    intro l hl
    cases l with
    | nil => rfl
    | cons c rest =>
      show ((c :: rest).take 15 ++ (chunks15Aux n ((c :: rest).drop 15)).flatten) = c :: rest
      rw [ih ((c :: rest).drop 15)
        (by simp only [List.length_drop, List.length_cons]
            simp only [List.length_cons] at hl
            omega)]
      exact List.take_append_drop 15 (c :: rest)

lemma chunks15_join (l : List Char) : (chunks15 l).flatten = l :=
  chunks15Aux_join l.length l (Nat.le_refl _)

lemma strJoin_map_mk (ll : List (List Char)) :
    String.join (ll.map String.mk) = String.mk ll.flatten := by
  induction ll with
  | nil => rfl
  | cons x xs ih =>
    rw [List.map_cons, strJoin_cons, ih]
    rfl

/-- claim C3 (amended): if opening the native stream fails before any
event is emitted and the synchronous fallback call returns a text `s`
that passes the validity filter, every 15-character slice of which also
passes the filter, then `streamModelResponse` emits one `Output` per
consecutive 15-character slice of `s`, in order, followed by `Done`,
and the concatenation of the slices reproduces `s` exactly. -/
theorem claim_C3 (s : String)
    (hs : isValidTextContent (.vstr s) = true)
    (hchunks : ∀ c ∈ (chunks15 s.toList).map String.mk,
      isValidTextContent (.vstr c) = true) :
    streamModelResponse (.failed [] (.pstr s)) =
      ((chunks15 s.toList).map String.mk).map ReplicateEvent.output ++
        [ReplicateEvent.done] ∧
    String.join ((chunks15 s.toList).map String.mk) = s := by
  constructor
  · have hne : s ≠ "" := by
      intro he
      rw [he] at hs
      exact absurd hs (by decide)
    show [] ++ streamFallback (.pstr s) = _
    rw [List.nil_append]
    unfold streamFallback
    dsimp only
    simp only [predictionTruthy, predictionContent]
    rw [if_pos (by simp [hne]), if_pos hs, List.filter_eq_self.mpr hchunks]
  · rw [strJoin_map_mk, chunks15_join]
    cases s
    rfl

theorem claim_C3_witness :
    streamModelResponse (.failed [] (.pstr "hello world")) =
      ((chunks15 ("hello world".toList)).map String.mk).map ReplicateEvent.output ++
        [ReplicateEvent.done] ∧
    String.join ((chunks15 ("hello world".toList)).map String.mk) = "hello world" :=
  claim_C3 "hello world" (by decide) (by decide)

lemma handleStreamLoop_output_step (id model : String) (now : Nat) (b : Bool)
    (t : String) (rest : List ReplicateEvent) :
    handleStreamLoop id model now b (ReplicateEvent.output t :: rest) =
      (if b then [createSSEChunk id model now none (some "assistant") none none] else []) ++
      createSSEChunk id model now (some t) none none none ::
        handleStreamLoop id model now false rest := by
  cases b <;> rfl

lemma handleStreamLoop_done_step (id model : String) (now : Nat) (b : Bool)
    (rest : List ReplicateEvent) :
    handleStreamLoop id model now b (ReplicateEvent.done :: rest) =
      (if b then [createSSEChunk id model now none (some "assistant") none none] else []) ++
      [createSSEChunk id model now none none (some "stop") (some usageInfo),
       "data: [DONE]\n\n"] := by
  cases b <;> rfl

lemma handleStreamLoop_after_first (id model : String) (now : Nat) :
    ∀ outs : List String,
      handleStreamLoop id model now false
          (outs.map ReplicateEvent.output ++ [ReplicateEvent.done]) =
        outs.map (fun t => createSSEChunk id model now (some t) none none none) ++
        [createSSEChunk id model now none none (some "stop") (some usageInfo),
         "data: [DONE]\n\n"] := by
  intro outs
  induction outs with
  | nil =>
    simp only [List.map_nil, List.nil_append]
    rw [handleStreamLoop_done_step]
    rfl
  | cons t rest ih =>
    simp only [List.map_cons, List.cons_append]
    rw [handleStreamLoop_output_step, ih]
    rfl

/-- claim C2: in streaming mode the encoder emits exactly one role-only
delta chunk first, then one content-delta chunk per `Output(text)` with
that exact text, then on `Done` a chunk with empty delta,
`finish_reason = "stop"` and zeroed usage counters, followed by the
literal terminal line `data: [DONE]\n\n`; and every emitted frame is
either `data: <json>\n\n` for some chunk or that terminal line. -/
theorem claim_C2 (id model : String) (now : Nat) (outs : List String)
    (hne : ∀ t ∈ outs, t ≠ "") :
    handleStreamResponse id model now
        (outs.map ReplicateEvent.output ++ [ReplicateEvent.done]) =
      createSSEChunk id model now none (some "assistant") none none ::
      (outs.map (fun t => createSSEChunk id model now (some t) none none none) ++
       [createSSEChunk id model now none none (some "stop") (some usageInfo),
        "data: [DONE]\n\n"]) ∧
    (buildSSEChunk id model now none (some "assistant") none none).choices =
      [{ index := 0, delta := { role := some "assistant", content := none },
         finish_reason := none }] ∧
    (∀ t ∈ outs, (buildSSEChunk id model now (some t) none none none).choices =
      [{ index := 0, delta := { role := none, content := some t },
         finish_reason := none }]) ∧
    (buildSSEChunk id model now none none (some "stop") (some usageInfo)).choices =
      [{ index := 0, delta := { role := none, content := none },
         finish_reason := some "stop" }] ∧
    (buildSSEChunk id model now none none (some "stop") (some usageInfo)).usage =
      some { prompt_tokens := 0, completion_tokens := 0, total_tokens := 0 } ∧
    (∀ line ∈ handleStreamResponse id model now
        (outs.map ReplicateEvent.output ++ [ReplicateEvent.done]),
      (∃ c : SSEChunk, line = "data: " ++ serializeSSEChunk c ++ "\n\n") ∨
      line = "data: [DONE]\n\n") := by
  have hshape : handleStreamResponse id model now
      (outs.map ReplicateEvent.output ++ [ReplicateEvent.done]) =
    createSSEChunk id model now none (some "assistant") none none ::
      (outs.map (fun t => createSSEChunk id model now (some t) none none none) ++
       [createSSEChunk id model now none none (some "stop") (some usageInfo),
        "data: [DONE]\n\n"]) := by
    unfold handleStreamResponse
    cases outs with
    | nil =>
      simp only [List.map_nil, List.nil_append]
      rw [handleStreamLoop_done_step]
      rfl
    | cons t rest =>
      simp only [List.map_cons, List.cons_append]
      rw [handleStreamLoop_output_step, handleStreamLoop_after_first]
      rfl
  refine ⟨hshape, rfl, ?_, rfl, rfl, ?_⟩
  · intro t ht
    have htne : t ≠ "" := hne t ht
    simp only [buildSSEChunk]
    rw [if_pos (by simp [htne])]
  · intro line hline
    rw [hshape] at hline
    rcases List.mem_cons.mp hline with h1 | h2
    · exact Or.inl ⟨_, h1⟩
    · rcases List.mem_append.mp h2 with h3 | h4
      · rcases List.mem_map.mp h3 with ⟨t, _, heq⟩
        exact Or.inl ⟨_, heq.symm⟩
      · rcases List.mem_cons.mp h4 with h5 | h6
        · exact Or.inl ⟨_, h5⟩
        · simp only [List.mem_singleton] at h6
          exact Or.inr h6

theorem claim_C2_witness :
    (∀ t ∈ ["He", "llo"], t ≠ "") ∧
    (handleStreamResponse "chatcmpl-w" "m" 3
        ((["He", "llo"].map ReplicateEvent.output) ++ [ReplicateEvent.done]) =
      createSSEChunk "chatcmpl-w" "m" 3 none (some "assistant") none none ::
      ((["He", "llo"].map (fun t => createSSEChunk "chatcmpl-w" "m" 3 (some t) none none none)) ++
       [createSSEChunk "chatcmpl-w" "m" 3 none none (some "stop") (some usageInfo),
        "data: [DONE]\n\n"]) ∧
     (buildSSEChunk "chatcmpl-w" "m" 3 none (some "assistant") none none).choices =
      [{ index := 0, delta := { role := some "assistant", content := none },
         finish_reason := none }] ∧
     (∀ t ∈ ["He", "llo"],
       (buildSSEChunk "chatcmpl-w" "m" 3 (some t) none none none).choices =
        [{ index := 0, delta := { role := none, content := some t },
           finish_reason := none }]) ∧
     (buildSSEChunk "chatcmpl-w" "m" 3 none none (some "stop") (some usageInfo)).choices =
      [{ index := 0, delta := { role := none, content := none },
         finish_reason := some "stop" }] ∧
     (buildSSEChunk "chatcmpl-w" "m" 3 none none (some "stop") (some usageInfo)).usage =
      some { prompt_tokens := 0, completion_tokens := 0, total_tokens := 0 } ∧
     (∀ line ∈ handleStreamResponse "chatcmpl-w" "m" 3
        ((["He", "llo"].map ReplicateEvent.output) ++ [ReplicateEvent.done]),
       (∃ c : SSEChunk, line = "data: " ++ serializeSSEChunk c ++ "\n\n") ∨
       line = "data: [DONE]\n\n")) :=
  ⟨by decide, claim_C2 "chatcmpl-w" "m" 3 ["He", "llo"] (by decide)⟩

/-- The url carried by a content part (absent read as `""`). -/
def itemUrl (it : ContentItem) : String :=
  (it.image_url.map (fun i => i.url)).getD ""

/-- Specification-side per-message content transform: a user message
with sequence content keeps exactly its `text`-typed parts; everything
else is untouched. -/
def specStrip (m : Message) : Message :=
  if m.role == "user" then
    match m.content with
    | some (.parts l) =>
      { m with content := some (.parts (l.filter (fun it => it.type == "text"))) }
    | _ => m
  else m

/-- Specification-side per-message url contribution: the urls of the
`image_url`-typed parts of a user message's sequence content, in order. -/
def specMsgUrls (m : Message) : List String :=
  if m.role == "user" then
    match m.content with
    | some (.parts l) => (l.filter (fun it => it.type == "image_url")).map itemUrl
    | _ => []
  else []

lemma stripImages_fst (l : List ContentItem) :
    (stripImages l).1 = l.filter (fun it => it.type == "text") := by
  induction l with
  | nil => rfl
  | cons item rest ih =>
    simp only [stripImages]
    by_cases h1 : (item.type == "image_url" && itemImageTruthy item) = true
    · rw [if_pos h1]
      have ht : (item.type == "text") = false := by
        rw [Bool.and_eq_true] at h1
        rw [eq_of_beq h1.1]
        decide
      rw [List.filter_cons, if_neg (by simp [ht])]
      exact ih
    · rw [if_neg h1]
      by_cases h2 : (item.type == "text") = true
      · rw [if_pos h2, List.filter_cons, if_pos (by simp [h2])]
        simpa using ih
      · rw [if_neg h2, List.filter_cons, if_neg (by simpa using h2)]
        exact ih

lemma stripImages_snd (l : List ContentItem)
    (h : ∀ it ∈ l, it.type = "image_url" → itemImageTruthy it = true) :
    (stripImages l).2 = (l.filter (fun it => it.type == "image_url")).map itemUrl := by
  induction l with
  | nil => rfl
  | cons item rest ih =>
    have hrest : ∀ it ∈ rest, it.type = "image_url" → itemImageTruthy it = true :=
      fun it hit => h it (List.mem_cons_of_mem _ hit)
    by_cases h1 : (item.type == "image_url") = true
    · have htruthy : itemImageTruthy item = true :=
        h item (List.mem_cons_self item rest) (eq_of_beq h1)
      simp [stripImages, List.filter_cons, h1, htruthy, ih hrest, itemUrl]
    · by_cases h2 : (item.type == "text") = true
      · simp [stripImages, List.filter_cons, h1, h2, ih hrest]
      · simp [stripImages, List.filter_cons, h1, h2, ih hrest]

/-- The sequence parts of a message's content (empty for string or
absent content). -/
def partsOf (m : Message) : List ContentItem :=
  match m.content with
  | some (.parts l) => l
  | _ => []

lemma extractImageUrls_spec (msgs : List Message)
    (himg : ∀ m ∈ msgs, m.role = "user" →
      ∀ it ∈ partsOf m, it.type = "image_url" → itemImageTruthy it = true) :
    (extractImageUrls msgs).1 = msgs.map specStrip ∧
    (extractImageUrls msgs).2 = (msgs.map specMsgUrls).flatten := by
  induction msgs with
  | nil => exact ⟨rfl, rfl⟩
  | cons m rest ih =>
    have hrest : ∀ m2 ∈ rest, m2.role = "user" →
        ∀ it ∈ partsOf m2, it.type = "image_url" → itemImageTruthy it = true :=
      fun m2 hm2 => himg m2 (List.mem_cons_of_mem _ hm2)
    have ihr := ih hrest
    simp only [extractImageUrls, List.map_cons, List.flatten_cons]
    by_cases hu : (m.role == "user") = true
    · cases hc : m.content with
      | none =>
        rw [if_pos hu]
        simp only [hc]
        refine ⟨?_, ?_⟩
        · rw [ihr.1]
          simp [specStrip, hu, hc]
        · rw [ihr.2]
          simp [specMsgUrls, hu, hc]
      | some mc =>
        cases mc with
        | str s =>
          rw [if_pos hu]
          simp only [hc]
          refine ⟨?_, ?_⟩
          · rw [ihr.1]
            simp [specStrip, hu, hc]
          · rw [ihr.2]
            simp [specMsgUrls, hu, hc]
        | parts l =>
          rw [if_pos hu]
          simp only [hc]
          have hl : ∀ it ∈ l, it.type = "image_url" → itemImageTruthy it = true := by
            have := himg m (List.mem_cons_self m rest) (eq_of_beq hu)
            rwa [show partsOf m = l from by simp [partsOf, hc]] at this
          refine ⟨?_, ?_⟩
          · rw [ihr.1]
            simp only [specStrip, hu, if_pos, hc]
            rw [stripImages_fst]
          · rw [ihr.2]
            simp only [specMsgUrls, hu, if_pos, hc]
            rw [stripImages_snd l hl]
    · rw [if_neg hu]
      refine ⟨?_, ?_⟩
      · rw [ihr.1]
        simp [specStrip, hu]
      · rw [ihr.2]
        simp [specMsgUrls, hu]

lemma buildModelInput_image (uc sp : String) (urls : List String) (mt : Option Int) :
    (buildModelInput uc sp urls mt).image = urls.getLast? := by
  unfold buildModelInput
  dsimp only
  by_cases h0 : urls.length > 0
  · rw [if_pos h0]
    by_cases h1 : urls.length = 1
    · rw [if_pos h1]
      rcases List.length_eq_one.mp h1 with ⟨a, rfl⟩
      rfl
    · rw [if_neg h1]
      simp [List.getLast?_eq_getElem?]
  · rw [if_neg h0]
    have : urls = [] := by
      cases urls with
      | nil => rfl
      | cons a l => simp at h0
    subst this
    rfl

/-- claim C6: in user messages with sequence content every image part is
removed from the emitted content (only text parts survive) and its url
is appended to `imageUrls` in encounter order; `buildModelInput` sets
the `image` field exactly when at least one url was collected, and the
last collected url wins. -/
theorem claim_C6 (msgs : List Message)
    (himg : ∀ m ∈ msgs, m.role = "user" →
      ∀ it ∈ partsOf m, it.type = "image_url" → itemImageTruthy it = true) :
    (extractImageUrls msgs).1 = msgs.map specStrip ∧
    (extractImageUrls msgs).2 = (msgs.map specMsgUrls).flatten ∧
    (∀ uc sp mt, (extractImageUrls msgs).2 ≠ [] →
      (buildModelInput uc sp (extractImageUrls msgs).2 mt).image =
        (extractImageUrls msgs).2.getLast? ∧
      (buildModelInput uc sp (extractImageUrls msgs).2 mt).image ≠ none) ∧
    (∀ uc sp mt, (extractImageUrls msgs).2 = [] →
      (buildModelInput uc sp (extractImageUrls msgs).2 mt).image = none) := by
  obtain ⟨h1, h2⟩ := extractImageUrls_spec msgs himg
  refine ⟨h1, h2, ?_, ?_⟩
  · intro uc sp mt hne
    rw [buildModelInput_image]
    refine ⟨rfl, ?_⟩
    simp only [ne_eq, List.getLast?_eq_none_iff]
    exact hne
  · intro uc sp mt hnil
    rw [buildModelInput_image, hnil]
    rfl

theorem claim_C6_witness :
    (∀ m ∈ [⟨"user", some (.parts
        [⟨"text", some "look", none⟩,
         ⟨"image_url", none, some ⟨"http://a/1.png"⟩⟩,
         ⟨"image_url", none, some ⟨"http://a/2.png"⟩⟩])⟩,
        (⟨"assistant", some (.str "ok")⟩ : Message)],
      m.role = "user" →
        ∀ it ∈ partsOf m, it.type = "image_url" → itemImageTruthy it = true) ∧
    ((extractImageUrls [⟨"user", some (.parts
        [⟨"text", some "look", none⟩,
         ⟨"image_url", none, some ⟨"http://a/1.png"⟩⟩,
         ⟨"image_url", none, some ⟨"http://a/2.png"⟩⟩])⟩,
        (⟨"assistant", some (.str "ok")⟩ : Message)]).2 =
      ["http://a/1.png", "http://a/2.png"] ∧
     (buildModelInput "c" "s" ["http://a/1.png", "http://a/2.png"] none).image =
      some "http://a/2.png") := by
  constructor
  · decide
  · constructor
    · decide
    · have h := claim_C6 [⟨"user", some (.parts
        [⟨"text", some "look", none⟩,
         ⟨"image_url", none, some ⟨"http://a/1.png"⟩⟩,
         ⟨"image_url", none, some ⟨"http://a/2.png"⟩⟩])⟩,
        (⟨"assistant", some (.str "ok")⟩ : Message)] (by decide)
      have h3 := (h.2.2.1 "c" "s" none (by decide)).1
      rw [show (extractImageUrls [⟨"user", some (.parts
        [⟨"text", some "look", none⟩,
         ⟨"image_url", none, some ⟨"http://a/1.png"⟩⟩,
         ⟨"image_url", none, some ⟨"http://a/2.png"⟩⟩])⟩,
        (⟨"assistant", some (.str "ok")⟩ : Message)]).2 =
        ["http://a/1.png", "http://a/2.png"] from by decide] at h3
      rw [h3]
      decide

/-- The frame one message contributes to the conversation string:
`"<role>: <text>\n"` when the formatting loop emits it, nothing
otherwise. -/
def specFormatLine (m : Message) : String :=
  if messageEmitted m then m.role ++ ": " ++ messageText m ++ "\n" else ""

/-- claim C7 counterexample: a message whose content is an empty
sequence has empty content, so per the claim it should be skipped
entirely and contribute nothing — but the code emits its role prefix
`"user: \n"`, because an empty array is truthy in JavaScript. -/
theorem claim_C7_counterexample :
    formatMessagesToConversation [{ role := "user", content := some (.parts []) }] =
      "user: \n" ∧
    ("user: \n" : String) ≠ "" := by
  refine ⟨by decide, by decide⟩

/-- claim C7 (amended): the conversation text is the concatenation, in
order, of `"<role>: <text>\n"` over the emitted messages, where `<text>`
is the string content or the space-joined texts of the `text`-typed
parts; a message is skipped (not even its role prefix appears) exactly
when its role is falsy or its content is absent or the empty string —
a message whose content is a sequence is always emitted, even when the
sequence is empty or has no text parts. -/
theorem claim_C7 (msgs : List Message) :
    formatMessagesToConversation msgs = String.join (msgs.map specFormatLine) ∧
    (∀ m : Message, (m.content = none ∨ m.content = some (.str "")) →
      specFormatLine m = "") ∧
    (∀ m : Message, m.role = "" → specFormatLine m = "") ∧
    (∀ m : Message, ∀ s : String, m.role ≠ "" → s ≠ "" → m.content = some (.str s) →
      specFormatLine m = m.role ++ ": " ++ s ++ "\n") ∧
    (∀ m : Message, ∀ l : List ContentItem, m.role ≠ "" → m.content = some (.parts l) →
      specFormatLine m = m.role ++ ": " ++
        String.intercalate " "
          ((l.filter (fun it => it.type == "text")).map (fun it => it.text.getD "")) ++
        "\n") := by
  refine ⟨?_, ?_, ?_, ?_, ?_⟩
  · unfold formatMessagesToConversation
    rw [foldl_str_acc specFormatLine _ ?hstep msgs ""]
    · rfl
    · intro acc m
      unfold specFormatLine
      by_cases h : messageEmitted m = true
      · rw [if_pos h, if_pos h]
        simp [String.append_assoc]
      · rw [if_neg h, if_neg h]
        simp
  · intro m hm
    unfold specFormatLine messageEmitted
    rcases hm with h | h <;> rw [h] <;> simp
  · intro m hr
    unfold specFormatLine messageEmitted
    rw [hr]
    simp
  · intro m s hr hs hc
    unfold specFormatLine
    rw [if_pos (by unfold messageEmitted; rw [hc]; simp [hr, hs])]
    unfold messageText
    rw [hc]
  · intro m l hr hc
    unfold specFormatLine
    rw [if_pos (by unfold messageEmitted; rw [hc]; simp [hr])]
    unfold messageText
    rw [hc]

theorem claim_C7_witness :
    formatMessagesToConversation
        [⟨"user", some (.str "hi")⟩, ⟨"assistant", some (.str "")⟩,
         ⟨"user", some (.parts [⟨"text", some "a", none⟩, ⟨"text", some "b", none⟩])⟩] =
      String.join
        ([⟨"user", some (.str "hi")⟩, ⟨"assistant", some (.str "")⟩,
          ⟨"user", some (.parts [⟨"text", some "a", none⟩, ⟨"text", some "b", none⟩])⟩].map
          specFormatLine) ∧
    specFormatLine ⟨"system", none⟩ = "" ∧
    specFormatLine ⟨"user", some (.str "hi")⟩ = "user" ++ ": " ++ "hi" ++ "\n" ∧
    specFormatLine ⟨"user", some (.parts [⟨"text", some "a", none⟩, ⟨"text", some "b", none⟩])⟩ =
      "user" ++ ": " ++
        String.intercalate " "
          (([⟨"text", some "a", none⟩, (⟨"text", some "b", none⟩ : ContentItem)].filter
            (fun it => it.type == "text")).map (fun it => it.text.getD "")) ++ "\n" := by
  have h := claim_C7 [⟨"user", some (.str "hi")⟩, ⟨"assistant", some (.str "")⟩,
    ⟨"user", some (.parts [⟨"text", some "a", none⟩, ⟨"text", some "b", none⟩])⟩]
  refine ⟨h.1, ?_, ?_, ?_⟩
  · exact h.2.1 ⟨"system", none⟩ (Or.inl rfl)
  · exact h.2.2.2.1 ⟨"user", some (.str "hi")⟩ "hi" (by decide) (by decide) rfl
  · exact h.2.2.2.2 ⟨"user", some (.parts [⟨"text", some "a", none⟩, ⟨"text", some "b", none⟩])⟩
      [⟨"text", some "a", none⟩, ⟨"text", some "b", none⟩] (by decide) rfl

/-- The text lines one system message contributes to the system prompt:
its string content whole, or the texts of its `text`-typed parts with
truthy text. -/
def linesOfMsg (m : Message) : List String :=
  match m.content with
  | some (.str s) => [s]
  | some (.parts l) =>
    (l.filter (fun it => it.type == "text" && itemTextTruthy it)).map
      (fun it => it.text.getD "")
  | none => []

/-- The text lines of all system messages, in original order. -/
def systemLines (messages : List Message) : List String :=
  ((messages.filter (fun m => m.role == "system")).map linesOfMsg).flatten

/-- The system prompt exactly as claim C5 words it: the newline-joined
system text bodies with (only) trailing whitespace trimmed. -/
def specSystemPrompt (messages : List Message) : String :=
  jsTrimEnd (newlineJoin (systemLines messages))

/-- claim C5 counterexample: for a single system message whose content
starts with whitespace, the newline-joined text bodies with trailing
whitespace trimmed are `"  hi"`, but the code also strips the leading
whitespace and returns `"hi"`. -/
theorem claim_C5_counterexample :
    (processMessages { messages := some [⟨"system", some (.str "  hi")⟩], max_tokens := none }).systemPrompt = "hi" ∧
    specSystemPrompt [⟨"system", some (.str "  hi")⟩] = "  hi" ∧
    ("hi" : String) ≠ "  hi" := by
  refine ⟨by decide, by decide, by decide⟩

lemma strJoin_map_ite {α : Type} (p : α → Bool) (f : α → String) (l : List α) :
    String.join (l.map (fun x => if p x then f x else "")) =
    String.join ((l.filter p).map f) := by
  induction l with
  | nil => rfl
  | cons x xs ih =>
    rw [List.map_cons, strJoin_cons, List.filter_cons]
    by_cases h : p x = true
    · rw [if_pos h, if_pos h, List.map_cons, strJoin_cons, ih]
    · rw [if_neg h, if_neg h, ih]
      simp

lemma appendSysContent_eq (acc : String) (m : Message) :
    appendSysContent acc m =
      acc ++ String.join ((linesOfMsg m).map (fun x => x ++ "\n")) := by
  cases hc : m.content with
  | none => simp [appendSysContent, linesOfMsg, hc, String.join]
  | some mc =>
    cases mc with
    | str s =>
      simp only [appendSysContent, linesOfMsg, hc, List.map_cons, List.map_nil, strJoin_cons]
      simp [String.join, String.append_assoc]
    | parts l =>
      simp only [appendSysContent, linesOfMsg, hc]
      rw [foldl_str_acc
        (fun item => if item.type == "text" && itemTextTruthy item
          then item.text.getD "" ++ "\n" else "")
        _ ?hstep l acc]
      case hstep =>
        intro a item
        by_cases h : (item.type == "text" && itemTextTruthy item) = true
        · simp only [if_pos h, String.append_assoc]
        · simp only [if_neg h]
          simp
      congr 1
      rw [List.map_map]
      exact strJoin_map_ite _ _ l

lemma strJoin_map_join {α : Type} (g : α → List String) (l : List α) :
    String.join (l.map (fun x => String.join (g x))) =
    String.join ((l.map g).flatten) := by
  induction l with
  | nil => rfl
  | cons x xs ih =>
    rw [List.map_cons, strJoin_cons, List.map_cons, List.flatten_cons, strJoin_append, ih]

lemma join_terminated (lines : List String) (h : lines ≠ []) :
    String.join (lines.map (fun x => x ++ "\n")) = newlineJoin lines ++ "\n" := by
  induction lines with
  | nil => exact absurd rfl h
  | cons x xs ih =>
    cases xs with
    | nil =>
      rw [List.map_cons, List.map_nil, strJoin_cons]
      show x ++ "\n" ++ String.join [] = x ++ "\n"
      simp [String.join]
    | cons y ys =>
      rw [List.map_cons, strJoin_cons, ih (by simp)]
      show x ++ "\n" ++ (newlineJoin (y :: ys) ++ "\n") =
        x ++ "\n" ++ newlineJoin (y :: ys) ++ "\n"
      simp [String.append_assoc]

lemma jsTrim_append_newline (s : String) : jsTrim (s ++ "\n") = jsTrim s := by
  unfold jsTrim
  congr 1
  have hl : (s ++ "\n").toList = s.toList ++ ['\n'] := by
    show (s ++ "\n").data = s.data ++ ['\n']
    rw [String.data_append]
  rw [hl]
  unfold jsTrimList
  rw [List.dropWhile_append]
  by_cases h : (s.toList.dropWhile isJsWhitespace).isEmpty = true
  · rw [if_pos h, List.isEmpty_iff.mp h]
    rfl
  · rw [if_neg h, List.reverse_append]
    show ((['\n'] ++ (s.toList.dropWhile isJsWhitespace).reverse).dropWhile
        isJsWhitespace).reverse = _
    rw [List.cons_append, List.nil_append,
      List.dropWhile_cons_of_pos (by decide : isJsWhitespace '\n' = true)]

lemma extractSystemPrompt_fst (msgs : List Message)
    (h : msgs.filter (fun m => m.role == "system") ≠ []) :
    (extractSystemPrompt msgs).1 = jsTrim (newlineJoin (systemLines msgs)) := by
  unfold extractSystemPrompt
  rw [if_pos (List.length_pos.mpr h)]
  dsimp only
  have h1 : (msgs.filter (fun m => m.role == "system")).foldl appendSysContent "" =
      String.join ((systemLines msgs).map (fun x => x ++ "\n")) := by
    rw [foldl_str_acc (fun m => String.join ((linesOfMsg m).map (fun x => x ++ "\n")))
      appendSysContent appendSysContent_eq]
    rw [strJoin_map_join (fun m => (linesOfMsg m).map (fun x => x ++ "\n"))]
    unfold systemLines
    rw [List.map_flatten, List.map_map]
    simp
    rfl
  rw [h1]
  by_cases hl : systemLines msgs = []
  · rw [hl]
    rfl
  · rw [join_terminated _ hl, jsTrim_append_newline]

lemma extractSystemPrompt_snd (msgs : List Message) :
    (extractSystemPrompt msgs).2 = msgs.filter (fun m => !(m.role == "system")) := by
  unfold extractSystemPrompt
  by_cases h : (msgs.filter (fun m => m.role == "system")).length > 0
  · rw [if_pos h]
  · rw [if_neg h]
    have hnone : ∀ m ∈ msgs, (m.role == "system") = false := by
      intro m hm
      by_contra hc
      have ht : (m.role == "system") = true := by
        cases hb : (m.role == "system")
        · exact absurd hb hc
        · rfl
      have : m ∈ msgs.filter (fun m => m.role == "system") :=
        List.mem_filter.mpr ⟨hm, ht⟩
      cases hf : msgs.filter (fun m => m.role == "system") with
      | nil => rw [hf] at this; simp at this
      | cons a l => rw [hf] at h; simp at h
    show msgs = _
    symm
    refine List.filter_eq_self.mpr ?_
    intro m hm
    rw [hnone m hm]
    rfl

/-- claim C5 (amended): for a non-empty well-typed message list, when at
least one system message is present the returned `systemPrompt` is the
newline-join of the system text bodies in original order (string
contents whole; sequence contents contributing one line per `text` part
with non-empty text) with BOTH leading and trailing whitespace trimmed;
no system message contributes to the returned conversation text, which
is computed from the non-system messages only; and with zero system
messages the `systemPrompt` is the empty string. -/
theorem claim_C5 (body : RequestBody) (msgs : List Message)
    (hm : body.messages = some msgs) (hne : msgs ≠ []) :
    ((msgs.filter (fun m => m.role == "system")) ≠ [] →
      (processMessages body).systemPrompt = jsTrim (newlineJoin (systemLines msgs))) ∧
    (processMessages body).userContent =
      some (formatMessagesToConversation
        (extractImageUrls (msgs.filter (fun m => !(m.role == "system")))).1) ∧
    ((∀ m ∈ msgs, m.role ≠ "system") → (processMessages body).systemPrompt = "") := by
  have hproc : processMessages body =
      { userContent := some (formatMessagesToConversation
          (extractImageUrls (extractSystemPrompt msgs).2).1),
        systemPrompt := (extractSystemPrompt msgs).1,
        imageUrls := (extractImageUrls (extractSystemPrompt msgs).2).2 } := by
    unfold processMessages
    rw [hm]
    dsimp only
    rw [if_neg (fun h0 => hne (List.length_eq_zero.mp h0))]
  refine ⟨?_, ?_, ?_⟩
  · intro hsys
    rw [hproc]
    exact extractSystemPrompt_fst msgs hsys
  · rw [hproc]
    rw [extractSystemPrompt_snd]
  · intro hnosys
    rw [hproc]
    unfold extractSystemPrompt
    have hnil : msgs.filter (fun m => m.role == "system") = [] := by
      refine List.filter_eq_nil_iff.mpr ?_
      intro m hmem
      have := hnosys m hmem
      cases hb : (m.role == "system")
      · simp
      · exact absurd (eq_of_beq hb) this
    rw [hnil]
    rfl

theorem claim_C5_witness :
    ((([⟨"system", some (.str "be nice")⟩, ⟨"system", some (.parts
        [⟨"text", some "short", none⟩, ⟨"text", some "", none⟩])⟩,
       ⟨"user", some (.str "hi")⟩] : List Message).filter
        (fun m => m.role == "system")) ≠ [] →
      (processMessages { messages := some [⟨"system", some (.str "be nice")⟩,
          ⟨"system", some (.parts [⟨"text", some "short", none⟩, ⟨"text", some "", none⟩])⟩,
          ⟨"user", some (.str "hi")⟩], max_tokens := none }).systemPrompt =
        jsTrim (newlineJoin (systemLines [⟨"system", some (.str "be nice")⟩,
          ⟨"system", some (.parts [⟨"text", some "short", none⟩, ⟨"text", some "", none⟩])⟩,
          ⟨"user", some (.str "hi")⟩]))) ∧
    (processMessages { messages := some [⟨"system", some (.str "be nice")⟩,
        ⟨"system", some (.parts [⟨"text", some "short", none⟩, ⟨"text", some "", none⟩])⟩,
        ⟨"user", some (.str "hi")⟩], max_tokens := none }).userContent =
      some (formatMessagesToConversation
        (extractImageUrls (([⟨"system", some (.str "be nice")⟩,
          ⟨"system", some (.parts [⟨"text", some "short", none⟩, ⟨"text", some "", none⟩])⟩,
          ⟨"user", some (.str "hi")⟩] : List Message).filter
            (fun m => !(m.role == "system")))).1) ∧
    ((∀ m ∈ ([⟨"system", some (.str "be nice")⟩, ⟨"system", some (.parts
        [⟨"text", some "short", none⟩, ⟨"text", some "", none⟩])⟩,
        ⟨"user", some (.str "hi")⟩] : List Message), m.role ≠ "system") →
      (processMessages { messages := some [⟨"system", some (.str "be nice")⟩,
          ⟨"system", some (.parts [⟨"text", some "short", none⟩, ⟨"text", some "", none⟩])⟩,
          ⟨"user", some (.str "hi")⟩], max_tokens := none }).systemPrompt = "") :=
  claim_C5 _ _ rfl (by decide)

lemma jsProcessTry_error_none (msgs : List JsVal) (r : ProcResult)
    (herr : jsProcessTry msgs = .error r) : r.userContent = none := by
  unfold jsProcessTry at herr
  dsimp only at herr
  split at herr
  · injection herr with h
    rw [← h]
  · split at herr
    · injection herr with h
      rw [← h]
    · split at herr
      · injection herr with h
        rw [← h]
      · exact absurd herr (by simp)

/-- claim C9: `processMessages` never surfaces an exception: a
non-array or empty `messages` value returns the undefined-conversation
result, and any exception raised inside the `try` block is caught and
also yields `userContent = undefined` (the catch keeps whatever
`systemPrompt` and `imageUrls` the completed stages had produced). -/
theorem claim_C9 (messages : JsVal) (msgs : List JsVal) (r : ProcResult)
    (hna : ∀ l, messages ≠ JsVal.varr l) (herr : jsProcessTry msgs = .error r) :
    jsProcessMessages messages =
      { userContent := none, systemPrompt := "", imageUrls := [] } ∧
    jsProcessMessages (.varr []) =
      { userContent := none, systemPrompt := "", imageUrls := [] } ∧
    r.userContent = none ∧
    jsProcessMessages (.varr msgs) = r := by
  refine ⟨?_, rfl, jsProcessTry_error_none msgs r herr, ?_⟩
  · cases messages
    case varr l => exact absurd rfl (hna l)
    all_goals rfl
  · unfold jsProcessMessages
    dsimp only
    have hlen : ¬ msgs.length = 0 := by
      intro h0
      rw [List.length_eq_zero.mp h0] at herr
      rw [show jsProcessTry [] = Except.ok
        { userContent := some "", systemPrompt := "", imageUrls := [] } from rfl] at herr
      exact absurd herr (by simp)
    rw [if_neg hlen, herr]

theorem claim_C9_witness :
    jsProcessMessages (.vnum 5) =
      { userContent := none, systemPrompt := "", imageUrls := [] } ∧
    jsProcessMessages (.varr []) =
      { userContent := none, systemPrompt := "", imageUrls := [] } ∧
    ({ userContent := none, systemPrompt := "", imageUrls := [] } : ProcResult).userContent
      = none ∧
    jsProcessMessages (.varr [.vnull]) =
      { userContent := none, systemPrompt := "", imageUrls := [] } :=
  claim_C9 (.vnum 5) [.vnull] { userContent := none, systemPrompt := "", imageUrls := [] }
    (fun l h => JsVal.noConfusion h) (by rfl)

lemma cloneObjs_arrs (refs : List Nat) :
    ∀ s : Store, (cloneObjs s refs).1.arrs = s.arrs := by
  induction refs with
  | nil => intro s; rfl
  | cons r rest ih => intro s; exact ih _

lemma cloneObjs_objs_extend (refs : List Nat) :
    ∀ s : Store, ∃ extra, (cloneObjs s refs).1.objs = s.objs ++ extra := by
  induction refs with
  | nil => intro s; exact ⟨[], by simp [cloneObjs]⟩
  | cons r rest ih =>
    intro s
    obtain ⟨extra, hex⟩ := ih { s with objs := s.objs ++ [readObj s r] }
    exact ⟨[readObj s r] ++ extra, by rw [show (cloneObjs s (r :: rest)).1 =
      (cloneObjs { s with objs := s.objs ++ [readObj s r] } rest).1 from rfl, hex]; simp⟩

lemma cloneObjs_refs_ge (refs : List Nat) :
    ∀ s : Store, ∀ nr ∈ (cloneObjs s refs).2, s.objs.length ≤ nr := by
  induction refs with
  | nil => intro s nr h; simp [cloneObjs] at h
  | cons r rest ih =>
    intro s nr h
    rw [show (cloneObjs s (r :: rest)).2 =
      s.objs.length :: (cloneObjs { s with objs := s.objs ++ [readObj s r] } rest).2
      from rfl] at h
    rcases List.mem_cons.mp h with h1 | h2
    · exact h1 ▸ Nat.le_refl _
    · have := ih { s with objs := s.objs ++ [readObj s r] } nr h2
      simp at this
      omega

lemma heapStripLoop_arrs (refs : List Nat) :
    ∀ (s : Store) (urls : List String), (heapStripLoop s refs urls).1.arrs = s.arrs := by
  induction refs with
  | nil => intro s urls; rfl
  | cons r rest ih =>
    intro s urls
    unfold heapStripLoop
    dsimp only
    by_cases hu : ((readObj s r).role == "user") = true
    · rw [if_pos hu]
      cases hc : (readObj s r).content with
      | none => exact ih _ _
      | some mc =>
        cases mc with
        | str t => exact ih _ _
        | parts l => exact ih _ _
    · rw [if_neg hu]
      exact ih _ _

lemma heapStripLoop_objs_lt (n : Nat) (refs : List Nat) :
    ∀ (s : Store) (urls : List String), (∀ r ∈ refs, n ≤ r) → ∀ j < n,
      (heapStripLoop s refs urls).1.objs[j]? = s.objs[j]? := by
  induction refs with
  | nil => intro s urls _ j _; rfl
  | cons r rest ih =>
    intro s urls hge j hj
    have hr : n ≤ r := hge r (List.mem_cons_self r rest)
    have hrest : ∀ x ∈ rest, n ≤ x := fun x hx => hge x (List.mem_cons_of_mem _ hx)
    unfold heapStripLoop
    dsimp only
    by_cases hu : ((readObj s r).role == "user") = true
    · rw [if_pos hu]
      cases hc : (readObj s r).content with
      | none => exact ih _ _ hrest j hj
      | some mc =>
        cases mc with
        | str t => exact ih _ _ hrest j hj
        | parts l =>
          rw [ih _ _ hrest j hj]
          show (s.objs.set r _)[j]? = _
          exact List.getElem?_set_ne (by omega)
    · rw [if_neg hu]
      exact ih _ _ hrest j hj

lemma heapExtractSystemPrompt_objs (s : Store) (a : Nat) :
    (heapExtractSystemPrompt s a).1.objs = s.objs := by
  unfold heapExtractSystemPrompt
  dsimp only
  by_cases h : ((readArr s a).filter
      (fun r => (readObj s r).role == "system")).length > 0
  · rw [if_pos h]
    rfl
  · rw [if_neg h]

lemma heapExtractSystemPrompt_arrs_ne (s : Store) (a b : Nat) (hne : b ≠ a) :
    (heapExtractSystemPrompt s a).1.arrs[b]? = s.arrs[b]? := by
  unfold heapExtractSystemPrompt
  dsimp only
  by_cases h : ((readArr s a).filter
      (fun r => (readObj s r).role == "system")).length > 0
  · rw [if_pos h]
    show (s.arrs.set a _)[b]? = _
    exact List.getElem?_set_ne (fun he => hne he.symm)
  · rw [if_neg h]

lemma heapExtractSystemPrompt_refs_sub (s : Store) (a : Nat) :
    ∀ r ∈ readArr (heapExtractSystemPrompt s a).1 a, r ∈ readArr s a := by
  unfold heapExtractSystemPrompt
  dsimp only
  by_cases h : ((readArr s a).filter
      (fun r => (readObj s r).role == "system")).length > 0
  · rw [if_pos h]
    intro r hr
    dsimp only at hr
    unfold readArr writeArr at hr
    dsimp only at hr
    by_cases hab : a < s.arrs.length
    · rw [List.getElem?_set_self hab] at hr
      simp only [Option.getD_some] at hr
      exact List.mem_of_mem_filter hr
    · rw [List.set_eq_of_length_le (by omega)] at hr
      exact hr
  · rw [if_neg h]
    intro r hr
    exact hr

lemma cloneMessages_arrs (s : Store) (a : Nat) :
    (cloneMessages s a).1.arrs = s.arrs ++ [(cloneObjs s (readArr s a)).2] := by
  show (cloneObjs s (readArr s a)).1.arrs ++ _ = _
  rw [cloneObjs_arrs]

lemma cloneMessages_ref (s : Store) (a : Nat) :
    (cloneMessages s a).2 = s.arrs.length := by
  show (cloneObjs s (readArr s a)).1.arrs.length = _
  rw [cloneObjs_arrs]

lemma cloneMessages_readArr (s : Store) (a : Nat) :
    readArr (cloneMessages s a).1 (cloneMessages s a).2 =
      (cloneObjs s (readArr s a)).2 := by
  unfold readArr
  rw [cloneMessages_arrs, cloneMessages_ref, List.getElem?_concat_length]
  rfl

/-- claim C10: `processMessages` leaves its input unchanged — after the
call the caller's message-array reference still holds the same object
references, and every one of those message objects is unmodified,
because all mutation (system-message removal, image-part stripping) is
performed on the freshly allocated deep copy. -/
theorem claim_C10 (s : Store) (a : Nat)
    (ha : a < s.arrs.length)
    (hr : ∀ r ∈ readArr s a, r < s.objs.length) :
    readArr (processMessagesTracked s (some a)).1 a = readArr s a ∧
    (readArr s a).map (readObj (processMessagesTracked s (some a)).1) =
      (readArr s a).map (readObj s) := by
  unfold processMessagesTracked
  dsimp only
  by_cases h0 : (readArr s a).length = 0
  · rw [if_pos h0]
    exact ⟨rfl, rfl⟩
  · rw [if_neg h0]
    dsimp only
    obtain ⟨extra, hc_objs⟩ := cloneObjs_objs_extend (readArr s a) s
    have hc_objs2 : (cloneMessages s a).1.objs = s.objs ++ extra := hc_objs
    have hane : a ≠ (cloneMessages s a).2 := by
      rw [cloneMessages_ref]
      omega
    have hclonerefs : ∀ r ∈ readArr (cloneMessages s a).1 (cloneMessages s a).2,
        s.objs.length ≤ r := by
      intro r hrr
      rw [cloneMessages_readArr] at hrr
      exact cloneObjs_refs_ge (readArr s a) s r hrr
    have hrefs2 : ∀ r ∈ readArr
        (heapExtractSystemPrompt (cloneMessages s a).1 (cloneMessages s a).2).1
        (cloneMessages s a).2, s.objs.length ≤ r := by
      intro r hrr
      exact hclonerefs r (heapExtractSystemPrompt_refs_sub _ _ r hrr)
    constructor
    · show readArr (heapExtractImageUrls
          (heapExtractSystemPrompt (cloneMessages s a).1 (cloneMessages s a).2).1
          (cloneMessages s a).2).1 a = readArr s a
      unfold readArr
      rw [show (heapExtractImageUrls
          (heapExtractSystemPrompt (cloneMessages s a).1 (cloneMessages s a).2).1
          (cloneMessages s a).2).1.arrs =
        (heapExtractSystemPrompt (cloneMessages s a).1 (cloneMessages s a).2).1.arrs
        from heapStripLoop_arrs _ _ _]
      rw [heapExtractSystemPrompt_arrs_ne _ _ a hane]
      rw [cloneMessages_arrs, List.getElem?_append, if_pos ha]
    · refine List.map_congr_left ?_
      intro r hrr
      have hrlt : r < s.objs.length := hr r hrr
      show readObj (heapExtractImageUrls
          (heapExtractSystemPrompt (cloneMessages s a).1 (cloneMessages s a).2).1
          (cloneMessages s a).2).1 r = readObj s r
      unfold readObj
      rw [show (heapExtractImageUrls
          (heapExtractSystemPrompt (cloneMessages s a).1 (cloneMessages s a).2).1
          (cloneMessages s a).2).1.objs[r]? =
        (heapExtractSystemPrompt (cloneMessages s a).1 (cloneMessages s a).2).1.objs[r]?
        from heapStripLoop_objs_lt s.objs.length _ _ [] hrefs2 r hrlt]
      rw [heapExtractSystemPrompt_objs, hc_objs2]
      rw [List.getElem?_append, if_pos hrlt]

/-- A concrete two-message store exercising the tracked model. -/
def exStore : Store :=
  { objs := [⟨"system", some (.str "s")⟩, ⟨"user", some (.str "hi")⟩], arrs := [[0, 1]] }

theorem claim_C10_witness :
    (0 : Nat) < exStore.arrs.length ∧
    (∀ r ∈ readArr exStore 0, r < exStore.objs.length) ∧
    (readArr (processMessagesTracked exStore (some 0)).1 0 = readArr exStore 0 ∧
     (readArr exStore 0).map (readObj (processMessagesTracked exStore (some 0)).1) =
       (readArr exStore 0).map (readObj exStore)) :=
  ⟨by decide, by decide, claim_C10 exStore 0 (by decide) (by decide)⟩
